import Mathlib

/-!
# Sheet attribute computation engine (Safpack front end)

A shallow embedding of the value computations of
`src/components/protected/Views/utils/ViewTable.jsx`:
`getColumnType`, `calculateRecurrentValue`, `calculateDerivedValueForDisplay`,
the row construction and the totals row of `renderTable`, the subrow ledgers and
their totals; of the reconciliation session of
`src/components/protected/Dashboard/ReconciliationPage.jsx`: the fresh
initialisation, `handleInputChange`, `filteredSheets`, `sortedSheets`, `totals`, the
export and the persisted state in `localStorage`; of the stream consumer
`handleFetchData` of `Dashboard/utils/SuperDashboardTable.jsx`; of the validators
`validateSheetName` (`SheetCreate/Main.jsx`) and `validateGroupName`
(`Groups/utils/GroupsHelper.jsx`); and of `processSheetData`
(`ExcelExport/ExcelExportComponent.jsx`).

## Modelling conventions

* A JavaScript value stored in an attribute's `data` array is a `JSVal`.
  Numbers are exact rationals: IEEE-754 rounding, infinities and `NaN` as a
  stored value are outside the model.  `NaN` only occurs as the result of
  `parseFloat`, where it is `none`.
* `xs[i]` on a JavaScript array is `jsIndex xs i`: `undefined` when `i` is not
  a position of the array.
* `a || b` is `jsOr a b`, with JavaScript truthiness `JSVal.truthy`.
* A `for`/`forEach` loop is a left fold over the visited indices.
* A function of the platform whose result depends on the environment (`JSON.parse`
  on a text, `localeCompare`, `toLocaleDateString`) is a parameter of the definitions
  that call it.  So are `toLowerCase` on an arbitrary name (the parameter `lower`; the
  comparisons with the word `"date"` use the ASCII `toLowerCase`, which decides them)
  and `Array.prototype.sort` (the parameter `engine`, an `ArraySort`: a permutation
  for every callback, the stable ordering for a consistent comparison function).
* A call that can throw returns an `Except`.
-/

namespace Safpack

/-! ## JavaScript values -/

/-- A JavaScript value as found in the JSON payloads of the sheet service. -/
inductive JSVal where
  | undefined : JSVal
  | null : JSVal
  | bool (b : Bool) : JSVal
  | num (r : Rat) : JSVal
  | str (s : String) : JSVal
  deriving DecidableEq, Repr

namespace JSVal

/-- JavaScript truthiness (`ToBoolean`). -/
def truthy : JSVal → Bool
  | undefined => false
  | null => false
  | bool b => b
  | num r => decide (r ≠ 0)
  | str s => decide (s ≠ "")

/-- The test `typeof v === "number"`. -/
def isNumber : JSVal → Bool
  | num _ => true
  | _ => false

end JSVal

/-- The expression `a || b`. -/
def jsOr (a b : JSVal) : JSVal :=
  if a.truthy then a else b

/-- The expression `xs[i]` on an array: `undefined` outside the array. -/
def jsIndex (xs : List JSVal) (i : Nat) : JSVal :=
  match xs.get? i with
  | some v => v
  | none => JSVal.undefined

/-! ## `parseFloat` -/

/-- White space skipped by `parseFloat` before the literal (`StrWhiteSpaceChar`:
tab, line feed, vertical tab, form feed, carriage return, space, no-break space, the
space separators, line and paragraph separator, byte order mark). -/
def isStrWhiteSpace (c : Char) : Bool :=
  c = ' ' || c = '\t' || c = '\n' || c = '\r' || c.toNat = 11 || c.toNat = 12 ||
    c.toNat = 160 || c.toNat = 5760 || (8192 ≤ c.toNat && c.toNat ≤ 8202) ||
    c.toNat = 8232 || c.toNat = 8233 || c.toNat = 8239 || c.toNat = 8287 ||
    c.toNat = 12288 || c.toNat = 65279

/-- Drops the leading white space of a string. -/
def skipWhiteSpace : List Char → List Char
  | [] => []
  | c :: cs => if isStrWhiteSpace c then skipWhiteSpace cs else c :: cs

/-- Reads a run of decimal digits: its value as a natural number, the number
of digits read and the rest of the input. -/
def readDigits : List Char → Nat → Nat → Nat × Nat × List Char
  | [], acc, n => (acc, n, [])
  | c :: cs, acc, n =>
    if c.isDigit then readDigits cs (acc * 10 + (c.toNat - 48)) (n + 1)
    else (acc, n, c :: cs)

/-- Reads an optional exponent part `e[+-]digits`; an `e` not followed by
digits is not part of the literal and counts as exponent 0. -/
def readExponent : List Char → Int
  | [] => 0
  | c :: cs =>
    if c = 'e' || c = 'E' then
      match cs with
      | '-' :: ds =>
        match readDigits ds 0 0 with
        | (v, n, _) => if n = 0 then 0 else - (v : Int)
      | '+' :: ds =>
        match readDigits ds 0 0 with
        | (v, n, _) => if n = 0 then 0 else (v : Int)
      | ds =>
        match readDigits ds 0 0 with
        | (v, n, _) => if n = 0 then 0 else (v : Int)
    else 0

/-- Scales a rational by a power of ten. -/
def scale10 (r : Rat) (e : Int) : Rat :=
  match e with
  | Int.ofNat k => r * (10 : Rat) ^ k
  | Int.negSucc k => r / (10 : Rat) ^ (k + 1)

/-- Reads an unsigned decimal literal (`digits[.digits][exp]` or
`.digits[exp]`) at the head of the input; `none` when there is none. -/
def readUnsigned (cs : List Char) : Option Rat :=
  match readDigits cs 0 0 with
  | (ip, n, rest) =>
    match rest with
    | '.' :: fs =>
      match readDigits fs 0 0 with
      | (fp, m, rest2) =>
        if n = 0 ∧ m = 0 then none
        else some (scale10 ((ip : Rat) + (fp : Rat) / (10 : Rat) ^ m) (readExponent rest2))
    | _ => if n = 0 then none else some (scale10 (ip : Rat) (readExponent rest))

/-- The function `parseFloat` on the characters of a string: the longest
prefix that is a decimal literal, after leading white space; `none` is `NaN`.
The literal `Infinity` has no rational value and is not read. -/
def parseFloatChars (cs : List Char) : Option Rat :=
  match skipWhiteSpace cs with
  | '-' :: ds => (readUnsigned ds).map (fun r => - r)
  | '+' :: ds => readUnsigned ds
  | ds => readUnsigned ds

/-- The function `parseFloat(v)`: the argument is converted to a string first, so a
number is read back as itself and `undefined`, `null` and booleans give `NaN`. -/
def parseFloat : JSVal → Option Rat
  | JSVal.num r => some r
  | JSVal.str s => parseFloatChars s.data
  | _ => none

/-- The expression `parseFloat(v) || 0`. -/
def parseFloatOr0 (v : JSVal) : Rat :=
  match parseFloat v with
  | some r => r
  | none => 0

/-- The method `toLowerCase` restricted to the ASCII letters: the other characters are
left as they are.  It is the method itself on a string of ASCII characters, and it
decides the comparisons of a lower-cased name with the word `"date"` for every string,
since no other character lower-cases to a letter of `"date"`.  Where the lower-cased
text of an arbitrary name matters (the search filter, the duplicate check, the sort by
name) the method of the platform is a parameter `lower` instead. -/
def toLowerCase (s : String) : String :=
  String.mk (s.data.map Char.toLower)

/-- What the totals row adds for a computed value: `parseFloat(value) || 0`,
kept when it is not `NaN` (it never is). -/
def numericValue (v : JSVal) : Rat :=
  parseFloatOr0 v

/-! ## Sheet metadata -/

/-- The `formula` object of a derived attribute; an index list may be absent. -/
structure Formula where
  additionIndices : Option (List Nat) := none
  subtractionIndices : Option (List Nat) := none
  deriving DecidableEq, Repr

/-- The `recurrentCheck` object of an attr. -/
structure RecurrentCheck where
  isRecurrent : Bool := false
  recurrentReferenceIndice : Option Nat := none
  recurrenceFedStatus : Bool := false
  deriving DecidableEq, Repr

/-- The `linkedFrom` object of an attr. -/
structure LinkedFrom where
  sheetObjectId : Option String := none
  deriving DecidableEq, Repr

/-- One entry of `subrowsConfig.subrowColumns`. -/
structure SubrowColumn where
  name : String
  type : String := "text"
  required : Bool := false
  deriving DecidableEq, Repr

/-- The `subrowsConfig` object of an attribute. -/
structure SubrowsConfig where
  subrowsEnabled : Bool := false
  subrowColumns : List SubrowColumn := []
  aggregateField : Option String := none
  deriving DecidableEq, Repr

/-- One attribute (column) of a sheet with its stored per-period `data`. -/
structure Attribute where
  name : String
  derived : Bool := false
  formula : Option Formula := none
  recurrentCheck : Option RecurrentCheck := none
  linkedFrom : Option LinkedFrom := none
  data : List JSVal := []
  hasSubrows : Bool := false
  subrowsConfig : Option SubrowsConfig := none
  isHidden : Bool := false
  isDeleted : Bool := false
  deriving DecidableEq, Repr

/-- The sheet shown by the table (`currentSheet`). -/
structure Sheet where
  attributes : List Attribute
  deriving DecidableEq, Repr

/-- The expression `currentSheet.attributes[index]`: `none` is `undefined`. -/
def Sheet.attr (currentSheet : Sheet) (index : Nat) : Option Attribute :=
  currentSheet.attributes.get? index

/-- The result of `getColumnType`. -/
inductive ColumnType where
  | derived
  | referenced
  | recurrent
  | normal
  deriving DecidableEq, Repr

/-- The test `attribute.recurrentCheck?.isRecurrent`. -/
def Attribute.isRecurrent (attr : Attribute) : Bool :=
  match attr.recurrentCheck with
  | some rc => rc.isRecurrent
  | none => false

/-- The test `attribute.linkedFrom && attribute.linkedFrom.sheetObjectId != null`. -/
def Attribute.isLinked (attr : Attribute) : Bool :=
  match attr.linkedFrom with
  | some l => l.sheetObjectId.isSome
  | none => false

/-- The function `getColumnType` (ViewTable.jsx, lines 65-75). -/
def getColumnType (attr : Attribute) : ColumnType :=
  if attr.derived then ColumnType.derived
  else if attr.isLinked then ColumnType.referenced
  else if attr.isRecurrent then ColumnType.recurrent
  else ColumnType.normal

/-! ## Value resolution -/

/-- The function `calculateRecurrentValue` (ViewTable.jsx, lines 209-234).  The
`columnIndex` parameter is unused by the source as well. -/
def calculateRecurrentValue (currentSheet : Sheet) (attr : Attribute)
    (_columnIndex : Nat) (rowIndex : Nat) : JSVal :=
  if !attr.isRecurrent then
    jsOr (jsIndex attr.data rowIndex) (JSVal.str "0")
  else
    let referenceColumnIndex :=
      match attr.recurrentCheck with
      | some rc => rc.recurrentReferenceIndice
      | none => none
    match referenceColumnIndex.bind currentSheet.attr with
    | none => JSVal.str "0"
    | some referenceColumn =>
      match rowIndex with
      | 0 => JSVal.str "0"
      | prev + 1 =>
        let previousPeriodValue := jsIndex referenceColumn.data prev
        jsOr previousPeriodValue (JSVal.str "0")

/-- One step of the `forEach` over `additionIndices` (lines 248-254):
`result += parseFloat(refAttr.data[rowIndex]) || 0` when the column exists and
holds a value for the row. -/
def addStep (currentSheet : Sheet) (rowIndex : Nat) (result : Rat) (index : Nat) : Rat :=
  match currentSheet.attr index with
  | some refAttr =>
    if jsIndex refAttr.data rowIndex ≠ JSVal.undefined then
      result + parseFloatOr0 (jsIndex refAttr.data rowIndex)
    else result
  | none => result

/-- One step of the `forEach` over `subtractionIndices` (lines 257-263). -/
def subStep (currentSheet : Sheet) (rowIndex : Nat) (result : Rat) (index : Nat) : Rat :=
  match currentSheet.attr index with
  | some refAttr =>
    if jsIndex refAttr.data rowIndex ≠ JSVal.undefined then
      result - parseFloatOr0 (jsIndex refAttr.data rowIndex)
    else result
  | none => result

/-- The function `calculateDerivedValueForDisplay` (ViewTable.jsx, lines 236-266). -/
def calculateDerivedValueForDisplay (currentSheet : Sheet) (attr : Attribute)
    (rowIndex : Nat) : JSVal :=
  match attr.derived, attr.formula with
  | true, some formula =>
    let additionIndices := formula.additionIndices.getD []
    let subtractionIndices := formula.subtractionIndices.getD []
    let result := additionIndices.foldl (addStep currentSheet rowIndex) 0
    let result := subtractionIndices.foldl (subStep currentSheet rowIndex) result
    JSVal.num result
  | _, _ => jsOr (jsIndex attr.data rowIndex) (JSVal.str "0")

/-! ## The table rows and the totals row (`renderTable`) -/

/-- The row count `currentSheet.attributes[0]?.data.length || 0` (line 542). -/
def numRows (currentSheet : Sheet) : Nat :=
  match currentSheet.attr 0 with
  | some first => first.data.length
  | none => 0

/-- The cell shown for an attribute in a stored row: `attr.data[rowIndex] || "0"`
(lines 547-549). -/
def rowCell (attr : Attribute) (rowIndex : Nat) : JSVal :=
  jsOr (jsIndex attr.data rowIndex) (JSVal.str "0")

/-- The rows of the table before the blank entry row (lines 546-551). -/
def rows (currentSheet : Sheet) : List (List JSVal) :=
  (List.range (numRows currentSheet)).map
    (fun rowIndex => currentSheet.attributes.map (fun attr => rowCell attr rowIndex))

/-- The derived branch of the totals row (lines 563-571). -/
def derivedTotal (currentSheet : Sheet) (attr : Attribute) : Rat :=
  (List.range (numRows currentSheet)).foldl
    (fun total i => total + numericValue (calculateDerivedValueForDisplay currentSheet attr i)) 0

/-- The normal/referenced branch of the totals row (lines 573-580): only values
whose `typeof` is `"number"` are added. -/
def normalTotal (currentSheet : Sheet) (attr : Attribute) : Rat :=
  (List.range (numRows currentSheet)).foldl
    (fun total i =>
      match jsOr (jsIndex attr.data i) (JSVal.num 0) with
      | JSVal.num r => total + r
      | _ => total) 0

/-- The recurrent branch of the totals row (lines 583-591): the loop runs while
`i <= numRows`. -/
def recurrentTotal (currentSheet : Sheet) (attr : Attribute) (cellIndex : Nat) : Rat :=
  (List.range (numRows currentSheet + 1)).foldl
    (fun total i =>
      total + numericValue (calculateRecurrentValue currentSheet attr cellIndex i)) 0

/-- One entry of `totalsRow` (lines 557-594). -/
def totalsEntry (currentSheet : Sheet) (attr : Attribute) (cellIndex : Nat) : JSVal :=
  if toLowerCase attr.name = "date" then JSVal.str "Total"
  else
    match getColumnType attr with
    | ColumnType.derived => JSVal.num (derivedTotal currentSheet attr)
    | ColumnType.normal => JSVal.num (normalTotal currentSheet attr)
    | ColumnType.referenced => JSVal.num (normalTotal currentSheet attr)
    | ColumnType.recurrent => JSVal.num (recurrentTotal currentSheet attr cellIndex)

/-- The `totalsRow` of `renderTable`: `attributes.map((attr, cellIndex) => …)`. -/
def totalsRow (currentSheet : Sheet) : List JSVal :=
  currentSheet.attributes.enum.map (fun p => totalsEntry currentSheet p.2 p.1)

/-- The per-period value of a column resolved by kind, with the dispatch of the
totals row (lines 558-592): a derived column through
`calculateDerivedValueForDisplay`, a recurrent column through
`calculateRecurrentValue`, a normal or referenced column as its stored cell. -/
def resolve (currentSheet : Sheet) (attr : Attribute) (cellIndex : Nat) (rowIndex : Nat) : JSVal :=
  match getColumnType attr with
  | ColumnType.derived => calculateDerivedValueForDisplay currentSheet attr rowIndex
  | ColumnType.recurrent => calculateRecurrentValue currentSheet attr cellIndex rowIndex
  | ColumnType.normal => rowCell attr rowIndex
  | ColumnType.referenced => rowCell attr rowIndex

/-- The number a column position contributes when it is resolved by kind at a
period; a position that holds no column contributes 0. -/
def resolvedAt (currentSheet : Sheet) (rowIndex : Nat) (index : Nat) : Rat :=
  match currentSheet.attr index with
  | some refAttr => numericValue (resolve currentSheet refAttr index rowIndex)
  | none => 0

/-- The number stored for a column position at a period,
`parseFloat(refAttr.data[rowIndex]) || 0`; a position that holds no column
contributes 0. -/
def storedAt (currentSheet : Sheet) (rowIndex : Nat) (index : Nat) : Rat :=
  match currentSheet.attr index with
  | some refAttr => parseFloatOr0 (jsIndex refAttr.data rowIndex)
  | none => 0

/-! ## The spec's scenario sheets -/

/-- The sheet `[Date, A, B, C = add[A, B]]` with periods `{A:10,B:5}`, `{A:3,B:2}`. -/
def scenarioSheet : Sheet :=
  { attributes :=
      [ { name := "Date", data := [JSVal.str "1 Jan 2025", JSVal.str "2 Jan 2025"] },
        { name := "A", data := [JSVal.num 10, JSVal.num 3] },
        { name := "B", data := [JSVal.num 5, JSVal.num 2] },
        { name := "C", derived := true,
          formula := some { additionIndices := some [1, 2], subtractionIndices := some [] },
          data := [JSVal.num 15, JSVal.num 5] } ] }

/-- Column `C` of `scenarioSheet`. -/
def scenarioC : Attribute :=
  { name := "C", derived := true,
    formula := some { additionIndices := some [1, 2], subtractionIndices := some [] },
    data := [JSVal.num 15, JSVal.num 5] }

/-- The scenario sheet with a second derived column `D = add[C]`, where the
stored data of `C` is not its recomputed value. -/
def twoLevelSheet : Sheet :=
  { attributes :=
      [ { name := "Date", data := [JSVal.str "1 Jan 2025", JSVal.str "2 Jan 2025"] },
        { name := "A", data := [JSVal.num 10, JSVal.num 3] },
        { name := "B", data := [JSVal.num 5, JSVal.num 2] },
        { name := "C", derived := true,
          formula := some { additionIndices := some [1, 2], subtractionIndices := some [] },
          data := [JSVal.num 14, JSVal.num 5] },
        { name := "D", derived := true,
          formula := some { additionIndices := some [3], subtractionIndices := some [] },
          data := [] } ] }

/-- Column `D` of `twoLevelSheet`. -/
def twoLevelD : Attribute :=
  { name := "D", derived := true,
    formula := some { additionIndices := some [3], subtractionIndices := some [] },
    data := [] }

/-- A sheet whose derived column is named `DATE`. -/
def dateNamedSheet : Sheet :=
  { attributes :=
      [ { name := "Date", data := [JSVal.str "1 Jan 2025", JSVal.str "2 Jan 2025"] },
        { name := "A", data := [JSVal.num 10, JSVal.num 3] },
        { name := "DATE", derived := true,
          formula := some { additionIndices := some [1], subtractionIndices := some [] },
          data := [JSVal.num 10, JSVal.num 3] } ] }

/-- The derived column `DATE` of `dateNamedSheet`. -/
def dateNamedDerived : Attribute :=
  { name := "DATE", derived := true,
    formula := some { additionIndices := some [1], subtractionIndices := some [] },
    data := [JSVal.num 10, JSVal.num 3] }

/-- The recurrent column `R` referencing column `A` (position 1), without stored data. -/
def recurrentR : Attribute :=
  { name := "R",
    recurrentCheck := some { isRecurrent := true, recurrentReferenceIndice := some 1 } }

/-- The scenario of the spec for recurrence: `[Date, A, R]` with `A = [10, 3]`. -/
def recurrentSheet : Sheet :=
  { attributes :=
      [ { name := "Date", data := [JSVal.str "1 Jan 2025", JSVal.str "2 Jan 2025"] },
        { name := "A", data := [JSVal.num 10, JSVal.num 3] },
        recurrentR ] }

/-- The recurrent column `R` referencing `A`, with the value 7 recorded for period 1. -/
def overrideR : Attribute :=
  { name := "R",
    recurrentCheck := some { isRecurrent := true, recurrentReferenceIndice := some 1 },
    data := [JSVal.null, JSVal.num 7] }

/-- The recurrence scenario in which `R` holds a recorded value for period 1. -/
def overrideSheet : Sheet :=
  { attributes :=
      [ { name := "Date", data := [JSVal.str "1 Jan 2025", JSVal.str "2 Jan 2025"] },
        { name := "A", data := [JSVal.num 10, JSVal.num 3] },
        overrideR ] }

/-- A recurrent column referencing the derived column `C` (position 3). -/
def recurrentOfDerivedR : Attribute :=
  { name := "R",
    recurrentCheck := some { isRecurrent := true, recurrentReferenceIndice := some 3 } }

/-- The derived column `C = add[A, B]` whose stored data at period 0 is 14. -/
def staleC : Attribute :=
  { name := "C", derived := true,
    formula := some { additionIndices := some [1, 2], subtractionIndices := some [] },
    data := [JSVal.num 14, JSVal.num 5] }

/-- The sheet `[Date, A, B, C = add[A, B], R]` with `R` recurrent on `C`. -/
def recurrentOfDerivedSheet : Sheet :=
  { attributes :=
      [ { name := "Date", data := [JSVal.str "1 Jan 2025", JSVal.str "2 Jan 2025"] },
        { name := "A", data := [JSVal.num 10, JSVal.num 3] },
        { name := "B", data := [JSVal.num 5, JSVal.num 2] },
        staleC,
        recurrentOfDerivedR ] }

/-- An independent column whose values are stored as numeric strings. -/
def stringA : Attribute :=
  { name := "A", data := [JSVal.str "10", JSVal.str "3"] }

/-- The derived column `S = add[A]` over the string-valued column `A`. -/
def stringS : Attribute :=
  { name := "S", derived := true,
    formula := some { additionIndices := some [1], subtractionIndices := some [] },
    data := [JSVal.str "10", JSVal.str "3"] }

/-- The sheet `[Date, A, S = add[A]]` with `A = ["10", "3"]`. -/
def stringSheet : Sheet :=
  { attributes :=
      [ { name := "Date", data := [JSVal.str "1 Jan 2025", JSVal.str "2 Jan 2025"] },
        stringA,
        stringS ] }

/-- The derived column `X = add[Y]`, `Y` at position 2. -/
def cyclicX : Attribute :=
  { name := "X", derived := true,
    formula := some { additionIndices := some [2], subtractionIndices := some [] },
    data := [JSVal.num 4] }

/-- The derived column `Y = add[X]`, `X` at position 1. -/
def cyclicY : Attribute :=
  { name := "Y", derived := true,
    formula := some { additionIndices := some [1], subtractionIndices := some [] },
    data := [JSVal.num 6] }

/-- The cyclic definition of the spec: `X` adds `Y` and `Y` adds `X`. -/
def cyclicSheet : Sheet :=
  { attributes := [ { name := "Date", data := [JSVal.str "1 Jan 2025"] }, cyclicX, cyclicY ] }

/-- A derived column adding position 1 and position 7 of a three-column sheet. -/
def outOfRangeC : Attribute :=
  { name := "C", derived := true,
    formula := some { additionIndices := some [1, 7], subtractionIndices := some [] },
    data := [] }

/-- The sheet `[Date, A, C = add[A, column 7]]`: position 7 holds no column. -/
def outOfRangeSheet : Sheet :=
  { attributes :=
      [ { name := "Date", data := [JSVal.str "1 Jan 2025", JSVal.str "2 Jan 2025"] },
        { name := "A", data := [JSVal.num 10, JSVal.num 3] },
        outOfRangeC ] }

/-- Column `A` of `scenarioSheet`, an independent column. -/
def scenarioA : Attribute :=
  { name := "A", data := [JSVal.num 10, JSVal.num 3] }

/-- The sum of the resolved values of a column over the periods `0 .. numRows - 1`
of the table. -/
def sumOverPeriods (currentSheet : Sheet) (value : Nat → JSVal) : Rat :=
  ((List.range (numRows currentSheet)).map (fun p => numericValue (value p))).sum

/-! ## Subrows (ViewTable.jsx) -/

/-- A subrow record of a cell's ledger: the configured fields with their values. -/
structure Subrow where
  fields : List (String × JSVal)
  deriving DecidableEq, Repr

/-- The expression `subrow[field]`: `undefined` when the record has no such field. -/
def Subrow.get (subrow : Subrow) (field : String) : JSVal :=
  match subrow.fields.lookup field with
  | some v => v
  | none => JSVal.undefined

/-- One stored row of `rawSheetsData[selectedSheetId]`: its `subrows` object maps a
column index, written as a decimal string, to the ledger of that cell. -/
structure RawRow where
  subrows : Option (List (String × List Subrow)) := none
  deriving DecidableEq, Repr

/-- The function `hasSubrows` (lines 268-272). -/
def hasSubrows (attr : Attribute) : Bool :=
  attr.hasSubrows &&
    match attr.subrowsConfig with
    | some config => config.subrowsEnabled
    | none => false

/-- The function `getSubrowsForRowAndColumn` (lines 274-285); `sheetData` is
`rawSheetsData[selectedSheetId] || []`. -/
def getSubrowsForRowAndColumn (sheetData : List RawRow) (rowIndex columnIndex : Nat) :
    List Subrow :=
  match sheetData.get? rowIndex with
  | none => []
  | some row =>
    match row.subrows with
    | none => []
    | some subrows =>
      match subrows.lookup (toString columnIndex) with
      | some columnSubrows => columnSubrows
      | none => []

/-- The sum in the Total row of the expanded subrows table (lines 355-361):
`subrows.reduce((total, subrow) => total + (parseFloat(subrow[aggregateField]) || 0), 0)`.
The row is rendered for a non-empty ledger when `aggregateField` is set, and the sum is
then formatted with `toFixed(2)`. -/
def subrowsTableTotal (subrows : List Subrow) (aggregateField : String) : Rat :=
  subrows.foldl (fun total subrow => total + parseFloatOr0 (subrow.get aggregateField)) 0

/-- The running total of the entry modal (lines 964-968):
`subrowsData[attr.name].reduce((sum, subrow) => sum + (parseFloat(subrow[aggregateField]) || 0), 0)`.
It is computed for a non-empty ledger of a column that opens the subrows modal, and
shown through `toString()`. -/
def modalSubrowsTotal (subrowsData : List Subrow) (aggregateField : String) : Rat :=
  subrowsData.foldl
    (fun sum subrow =>
      let value := parseFloatOr0 (subrow.get aggregateField)
      sum + value) 0

/-- A subrow-enabled column `Items` aggregating the field `qty`, with 5 stored for
period 0. -/
def subrowItems : Attribute :=
  { name := "Items", data := [JSVal.num 5], hasSubrows := true,
    subrowsConfig := some
      { subrowsEnabled := true,
        subrowColumns := [{ name := "item" }, { name := "qty", type := "number" }],
        aggregateField := some "qty" } }

/-- The sheet `[Date, Items]` with one period. -/
def subrowSheet : Sheet :=
  { attributes := [ { name := "Date", data := [JSVal.str "1 Jan 2025"] }, subrowItems ] }

/-- The stored ledger of `subrowSheet`: period 0, column 1 holds the entries
`{item: "bolt", qty: 4}` and `{item: "nut", qty: 8}`. -/
def subrowSheetData : List RawRow :=
  [ { subrows := some
        [ ("1",
            [ { fields := [("item", JSVal.str "bolt"), ("qty", JSVal.num 4)] },
              { fields := [("item", JSVal.str "nut"), ("qty", JSVal.num 8)] } ]) ] } ]

/-! ## Reconciliation (ReconciliationPage.jsx)

A sheet record of the stock pull carries numbers for its totals and counts; a total
that is missing is `none`, so that `sheet.openingStockTotal || 0` is `getD 0`.  The
counted values `reconOpeningStock` and `reconClosingStock` hold what the entry field
delivered (a string), `""` after a fresh start, and are `undefined` in a record that
never went through a fresh start. -/

/-- One record of `data.sheets`, as delivered by the stock pull. -/
structure StockSheet where
  sheetId : String := ""
  sheetName : String
  openingStockTotal : Option Rat := none
  closingStockTotal : Option Rat := none
  hasStockColumns : Bool := false
  openingCount : Option Rat := none
  closingCount : Option Rat := none
  openingColumnName : Option String := none
  closingColumnName : Option String := none
  deriving DecidableEq, Repr

/-- One record of `reconciliationSheets`: the stock-pull record with the counted
values and the variances. -/
structure ReconSheet extends StockSheet where
  reconOpeningStock : JSVal := JSVal.undefined
  reconClosingStock : JSVal := JSVal.undefined
  openingDifference : Option Rat := none
  closingDifference : Option Rat := none
  deriving DecidableEq, Repr

/-- A stock-pull record used as a reconciliation record as it is (`data.sheets` in
`savedReconciliation || data.sheets`): the reconciliation fields are absent. -/
def StockSheet.asRecon (sheet : StockSheet) : ReconSheet :=
  { toStockSheet := sheet }

/-- One record of `metaData`. -/
structure SheetMeta where
  sheetName : String
  groupName : Option String := none
  deriving DecidableEq, Repr

/-- The object `location.state.data` handed to the page (`reconciliationData`). -/
structure ReconciliationData where
  sheets : List StockSheet
  metaData : Option (List SheetMeta) := none
  deriving DecidableEq, Repr

/-- The fresh initialisation (lines 40-49):
`data.sheets.map((sheet) => ({...sheet, reconOpeningStock: "", reconClosingStock: "",
openingDifference: 0, closingDifference: 0}))`. -/
def initialSheets (sheets : List StockSheet) : List ReconSheet :=
  sheets.map (fun sheet =>
    { toStockSheet := sheet,
      reconOpeningStock := JSVal.str "",
      reconClosingStock := JSVal.str "",
      openingDifference := some 0,
      closingDifference := some 0 })

/-- The `field` argument of `handleInputChange` at its two call sites. -/
inductive ReconField where
  | reconOpeningStock
  | reconClosingStock
  deriving DecidableEq, Repr

/-- The function `handleInputChange` (lines 129-147): the new `reconciliationSheets`. -/
def handleInputChange (reconciliationSheets : List ReconSheet) (sheetName : String)
    (field : ReconField) (value : JSVal) : List ReconSheet :=
  reconciliationSheets.map (fun sheet =>
    if sheet.sheetName = sheetName then
      let numValue := parseFloatOr0 value
      match field with
      | ReconField.reconOpeningStock =>
        { sheet with
          reconOpeningStock := value,
          openingDifference := some (numValue - sheet.openingStockTotal.getD 0) }
      | ReconField.reconClosingStock =>
        { sheet with
          reconClosingStock := value,
          closingDifference := some (numValue - sheet.closingStockTotal.getD 0) }
    else sheet)

/-- The method `includes` on the characters of two strings: `t` occurs in `s`. -/
def includesChars : List Char → List Char → Bool
  | [], t => t.isEmpty
  | c :: s, t => t.isPrefixOf (c :: s) || includesChars s t

/-- The expression `s.includes(t)`. -/
def includes (s t : String) : Bool :=
  includesChars s.data t.data

/-- The filter controls of the page. -/
structure FilterState where
  searchTerm : String := ""
  selectedSheetNames : List String := []
  selectedGroup : String := "all"
  metaData : Option (List SheetMeta) := none
  deriving DecidableEq, Repr

/-- The expression `metaData?.find((meta) => meta.sheetName === sheetName)?.groupName`:
`none` is `undefined`. -/
def groupNameOf (metaData : Option (List SheetMeta)) (sheetName : String) : Option String :=
  match metaData with
  | none => none
  | some metas =>
    match metas.find? (fun meta => decide (meta.sheetName = sheetName)) with
    | some sheetMeta => sheetMeta.groupName
    | none => none

/-- The callback of `filteredSheets` (lines 161-175); `lower` is the method
`toLowerCase` of the platform. -/
def matchesFilter (lower : String → String) (filter : FilterState) (sheet : ReconSheet) :
    Bool :=
  let matchesSearch := includes (lower sheet.sheetName) (lower filter.searchTerm)
  let matchesSheetFilter := filter.selectedSheetNames.contains sheet.sheetName
  if filter.selectedGroup = "all" then matchesSearch && matchesSheetFilter
  else
    let matchesGroup :=
      decide (groupNameOf filter.metaData sheet.sheetName = some filter.selectedGroup)
    matchesSearch && matchesGroup && matchesSheetFilter

/-- The list `filteredSheets` (lines 161-175). -/
def filteredSheets (lower : String → String) (filter : FilterState)
    (reconciliationSheets : List ReconSheet) : List ReconSheet :=
  reconciliationSheets.filter (matchesFilter lower filter)

/-- The callback `compareFn` is a consistent comparison function for the records of a
list, in the words of the language standard (`Array.prototype.sort`): a record
compares equal to itself, equality is symmetric and transitive, and so are
before (a negative result) and after (a positive result). -/
def ConsistentOn (compareFn : ReconSheet → ReconSheet → Int) (l : List ReconSheet) : Prop :=
  (∀ a ∈ l, compareFn a a = 0) ∧
  (∀ a ∈ l, ∀ b ∈ l, compareFn a b = 0 → compareFn b a = 0) ∧
  (∀ a ∈ l, ∀ b ∈ l, ∀ c ∈ l, compareFn a b = 0 → compareFn b c = 0 → compareFn a c = 0) ∧
  (∀ a ∈ l, ∀ b ∈ l, ∀ c ∈ l, compareFn a b < 0 → compareFn b c < 0 → compareFn a c < 0) ∧
  (∀ a ∈ l, ∀ b ∈ l, ∀ c ∈ l, 0 < compareFn a b → 0 < compareFn b c → 0 < compareFn a c)

instance decidableConsistentOn (compareFn : ReconSheet → ReconSheet → Int)
    (l : List ReconSheet) : Decidable (ConsistentOn compareFn l) :=
  inferInstanceAs (Decidable
    ((∀ a ∈ l, compareFn a a = 0) ∧
    (∀ a ∈ l, ∀ b ∈ l, compareFn a b = 0 → compareFn b a = 0) ∧
    (∀ a ∈ l, ∀ b ∈ l, ∀ c ∈ l, compareFn a b = 0 → compareFn b c = 0 → compareFn a c = 0) ∧
    (∀ a ∈ l, ∀ b ∈ l, ∀ c ∈ l, compareFn a b < 0 → compareFn b c < 0 → compareFn a c < 0) ∧
    (∀ a ∈ l, ∀ b ∈ l, ∀ c ∈ l, 0 < compareFn a b → 0 < compareFn b c → 0 < compareFn a c)))

/-- The method `Array.prototype.sort` of the platform on a list of records, with what
the language standard (ECMAScript 2019 and later) says of it.  For every callback the
result holds the same records as the list (`perm`).  For a callback that is a
consistent comparison function on the list the sort is stable, so the result is the
one stable ordering of the list: each record inserted before the first one it does not
follow (`stable`).  For any other callback the order of the result is left to the
engine and nothing is said of it. -/
structure ArraySort where
  sort : (ReconSheet → ReconSheet → Int) → List ReconSheet → List ReconSheet
  perm : ∀ compareFn l, (sort compareFn l).Perm l
  stable : ∀ compareFn l, ConsistentOn compareFn l →
    sort compareFn l = l.insertionSort (fun a b => compareFn a b ≤ 0)

/-- A sort that meets the standard: the stable insertion of each record. -/
def stableSort : ArraySort :=
  { sort := fun compareFn l => l.insertionSort (fun a b => compareFn a b ≤ 0),
    perm := fun _ l => List.perm_insertionSort _ l,
    stable := fun _ _ _ => rfl }

/-- The list `sortedSheets` (lines 177-219): `[...filteredSheets]` sorted by the
comparison callback `compareFn`, whose sign orders two records; `engine` is the method
`Array.prototype.sort` of the platform. -/
def sortedSheets (engine : ArraySort) (compareFn : ReconSheet → ReconSheet → Int)
    (filteredSheets : List ReconSheet) : List ReconSheet :=
  engine.sort compareFn filteredSheets

/-- The accumulator of `totals`. -/
structure Totals where
  openingStock : Rat := 0
  reconOpening : Rat := 0
  openingDiff : Rat := 0
  closingStock : Rat := 0
  reconClosing : Rat := 0
  closingDiff : Rat := 0
  deriving DecidableEq, Repr

/-- The reducer of `totals` (lines 230-238). -/
def totalsStep (acc : Totals) (sheet : ReconSheet) : Totals :=
  { openingStock := acc.openingStock + sheet.openingStockTotal.getD 0,
    reconOpening := acc.reconOpening + parseFloatOr0 sheet.reconOpeningStock,
    openingDiff := acc.openingDiff + sheet.openingDifference.getD 0,
    closingStock := acc.closingStock + sheet.closingStockTotal.getD 0,
    reconClosing := acc.reconClosing + parseFloatOr0 sheet.reconClosingStock,
    closingDiff := acc.closingDiff + sheet.closingDifference.getD 0 }

/-- The value `totals` (lines 228-248): `sortedSheets.reduce(…, {openingStock: 0, …})`. -/
def totals (sortedSheets : List ReconSheet) : Totals :=
  sortedSheets.foldl totalsStep {}

/-- The aggregate shown by the page for a session, a filter state and a sort callback,
on a platform with the sort `engine` and the method `toLowerCase` as `lower`. -/
def aggregateVariance (engine : ArraySort) (lower : String → String)
    (compareFn : ReconSheet → ReconSheet → Int) (filter : FilterState)
    (reconciliationSheets : List ReconSheet) : Totals :=
  totals (sortedSheets engine compareFn (filteredSheets lower filter reconciliationSheets))

/-- A sheet is in view, in the words of the spec: its name contains the search term
ignoring case (the lower-cased name contains the lower-cased term, `lower` being the
method `toLowerCase` of the platform), its name is in the selected-sheet set and, when
a group other than `"all"` is selected, its metadata group is the selected group. -/
def inView (lower : String → String) (filter : FilterState) (sheet : ReconSheet) : Prop :=
  includes (lower sheet.sheetName) (lower filter.searchTerm) = true ∧
  sheet.sheetName ∈ filter.selectedSheetNames ∧
  (filter.selectedGroup ≠ "all" →
    groupNameOf filter.metaData sheet.sheetName = some filter.selectedGroup)

instance decidableInView (lower : String → String) (filter : FilterState) (sheet : ReconSheet) :
    Decidable (inView lower filter sheet) :=
  inferInstanceAs (Decidable
    (includes (lower sheet.sheetName) (lower filter.searchTerm) = true ∧
      sheet.sheetName ∈ filter.selectedSheetNames ∧
      (filter.selectedGroup ≠ "all" →
        groupNameOf filter.metaData sheet.sheetName = some filter.selectedGroup)))

/-- The sessions reachable from a fresh start on `source` by calls of
`handleInputChange`. -/
inductive Reachable (source : List StockSheet) : List ReconSheet → Prop where
  | fresh : Reachable source (initialSheets source)
  | input (session : List ReconSheet) (sheetName : String) (field : ReconField)
      (value : JSVal) :
      Reachable source session →
      Reachable source (handleInputChange session sheetName field value)

/-- The closing variance of a record, in the words of the spec: counted closing minus
closing total (a blank or unparsable count is 0, a missing total is 0). -/
def countedMinusTotalClosing (sheet : ReconSheet) : Rat :=
  parseFloatOr0 sheet.reconClosingStock - sheet.closingStockTotal.getD 0

/-- The opening variance of a record, in the words of the spec. -/
def countedMinusTotalOpening (sheet : ReconSheet) : Rat :=
  parseFloatOr0 sheet.reconOpeningStock - sheet.openingStockTotal.getD 0

/-- The closing count of a record is as seeded by the fresh start: blank, with the
variance 0. -/
def closingUntouched (sheet : ReconSheet) : Prop :=
  sheet.reconClosingStock = JSVal.str "" ∧ sheet.closingDifference = some 0

/-- The opening count of a record is as seeded by the fresh start. -/
def openingUntouched (sheet : ReconSheet) : Prop :=
  sheet.reconOpeningStock = JSVal.str "" ∧ sheet.openingDifference = some 0

instance decidableClosingUntouched (sheet : ReconSheet) : Decidable (closingUntouched sheet) :=
  inferInstanceAs (Decidable
    (sheet.reconClosingStock = JSVal.str "" ∧ sheet.closingDifference = some 0))

instance decidableOpeningUntouched (sheet : ReconSheet) : Decidable (openingUntouched sheet) :=
  inferInstanceAs (Decidable
    (sheet.reconOpeningStock = JSVal.str "" ∧ sheet.openingDifference = some 0))

/-- The closing variance a record shows: 0 while its closing count is untouched,
counted minus total once it has been set. -/
def closingVarianceOf (sheet : ReconSheet) : Rat :=
  if closingUntouched sheet then 0 else countedMinusTotalClosing sheet

/-- The opening variance a record shows. -/
def openingVarianceOf (sheet : ReconSheet) : Rat :=
  if openingUntouched sheet then 0 else countedMinusTotalOpening sheet

/-- The variances stored in a record are the ones it shows. -/
def VarianceInvariant (sheet : ReconSheet) : Prop :=
  sheet.closingDifference.getD 0 = closingVarianceOf sheet ∧
  sheet.openingDifference.getD 0 = openingVarianceOf sheet

/-! ## Persisted reconciliation state (`localStorage`)

`JSON.stringify` followed by `JSON.parse` returns the value it was given for the
records of this model (strings, finite numbers, booleans, `null`, absent fields).  A
text held by the store is therefore either a well-formed text, represented by the
value it denotes, or a text that `JSON.parse` rejects with a `SyntaxError`. -/

/-- A text held under a key of `localStorage`. -/
inductive StoredText (α : Type) where
  | json (value : α) : StoredText α
  | malformed (text : String) : StoredText α
  deriving DecidableEq, Repr

/-- The two keys of `localStorage` the reconciliation uses; `none` is a missing key
(`getItem` returns `null`), and the value `none` of a well-formed text is JSON `null`. -/
structure LocalStorage where
  reconciliationProgress : Option (StoredText (Option (List ReconSheet))) := none
  reconciliationData : Option (StoredText (Option ReconciliationData)) := none
  deriving DecidableEq, Repr

/-- The exceptions of the model: the `SyntaxError` an uncaught `JSON.parse` throws and
the `TypeError` of a method call on `undefined` or `null`. -/
inductive JsError where
  | syntaxError (text : String) : JsError
  | typeError (text : String) : JsError
  deriving DecidableEq, Repr

deriving instance DecidableEq for Except

/-- The expression `JSON.parse(localStorage.getItem(key))`: a missing key is read as
`null`, whose text `"null"` parses to `null`; a malformed text throws. -/
def jsonParseItem {α : Type} (item : Option (StoredText (Option α))) : Except JsError (Option α) :=
  match item with
  | none => Except.ok none
  | some (StoredText.json value) => Except.ok value
  | some (StoredText.malformed text) => Except.error (JsError.syntaxError text)

/-- The `continue` branch of the initialisation (lines 52-58): the value handed to
`setReconciliationSheets`, `savedReconciliation || data.sheets`.  An array is truthy,
also the empty one.  There is no `try` around `JSON.parse`. -/
def continueReconciliation (data : ReconciliationData) (storage : LocalStorage) :
    Except JsError (List ReconSheet) :=
  match jsonParseItem storage.reconciliationProgress with
  | Except.error e => Except.error e
  | Except.ok (some savedReconciliation) => Except.ok savedReconciliation
  | Except.ok none => Except.ok (data.sheets.map StockSheet.asRecon)

/-- The function `handleContinueReconciliation` (SuperDashboardTable.jsx, lines
275-280): the `data` it navigates with, `JSON.parse(localStorage.getItem("reconciliationData"))`. -/
def handleContinueReconciliation (storage : LocalStorage) :
    Except JsError (Option ReconciliationData) :=
  jsonParseItem storage.reconciliationData

/-- The auto-save effect (lines 94-103): both keys are written when the session is
not empty, nothing is written otherwise. -/
def autoSave (storage : LocalStorage) (reconciliationSheets : List ReconSheet)
    (data : Option ReconciliationData) : LocalStorage :=
  if reconciliationSheets.length > 0 then
    { reconciliationProgress := some (StoredText.json (some reconciliationSheets)),
      reconciliationData := some (StoredText.json data) }
  else storage

/-- The function `handleSaveAndExit` (lines 250-256): the store after
`localStorage.setItem("reconciliationProgress", JSON.stringify(reconciliationSheets))`. -/
def handleSaveAndExit (storage : LocalStorage) (reconciliationSheets : List ReconSheet) :
    LocalStorage :=
  { storage with reconciliationProgress := some (StoredText.json (some reconciliationSheets)) }

/-! ## Reconciliation scenarios -/

/-- A stock-pull record `S1` with opening total 40 and closing total 100. -/
def stockS1 : StockSheet :=
  { sheetId := "id1", sheetName := "S1", openingStockTotal := some 40,
    closingStockTotal := some 100 }

/-- A stock-pull record `S2` with opening total 7 and no closing total. -/
def stockS2 : StockSheet :=
  { sheetId := "id2", sheetName := "S2", openingStockTotal := some 7 }

/-- The filter state after initialisation over `S1` and `S2`: no search term, every
sheet selected, group `"all"`. -/
def allInView : FilterState :=
  { selectedSheetNames := ["S1", "S2"] }

/-- A sort callback that leaves the order as it is.  It is a consistent comparison
function on every list, so that every sort of the platform returns the list as it
stands, as `stableSort` does. -/
def keepOrder (_a _b : ReconSheet) : Int := 0

/-- A store that holds the progress of an earlier reconciliation over `S2`. -/
def staleStorage : LocalStorage :=
  { reconciliationProgress := some (StoredText.json (some (initialSheets [stockS2]))) }

/-- A store whose progress text is not JSON. -/
def malformedStorage : LocalStorage :=
  { reconciliationProgress := some (StoredText.malformed "[sheetName: S1"),
    reconciliationData := some (StoredText.json (some { sheets := [stockS1] })) }

/-! ## Further scenario sheets -/

/-- The derived column `X = add[X]`, at position 1 of its sheet, with 4 stored. -/
def selfRefX : Attribute :=
  { name := "X", derived := true,
    formula := some { additionIndices := some [1], subtractionIndices := some [] },
    data := [JSVal.num 4] }

/-- A sheet whose derived column adds itself. -/
def selfRefSheet : Sheet :=
  { attributes := [ { name := "Date", data := [JSVal.str "1 Jan 2025"] }, selfRefX ] }

/-! ## Reconciliation export (`handleExportToExcel`) -/

/-- A number that may be absent, as a cell value. -/
def optionalNumber : Option Rat → JSVal
  | some r => JSVal.num r
  | none => JSVal.undefined

/-- A string that may be absent, as a cell value. -/
def optionalString : Option String → JSVal
  | some t => JSVal.str t
  | none => JSVal.undefined

/-- The header row of the export (lines 264-277). -/
def exportHeaders : List JSVal :=
  [ JSVal.str "Sheet Name", JSVal.str "Opening Stock", JSVal.str "Recon Opening",
    JSVal.str "Opening Difference", JSVal.str "Closing Stock", JSVal.str "Recon Closing",
    JSVal.str "Closing Difference", JSVal.str "Has Stock Columns", JSVal.str "Opening Count",
    JSVal.str "Closing Count", JSVal.str "Opening Column", JSVal.str "Closing Column" ]

/-- The cells written for one record (lines 293-306). -/
def exportRow (sheet : ReconSheet) : List JSVal :=
  [ JSVal.str sheet.sheetName,
    JSVal.num (sheet.openingStockTotal.getD 0),
    jsOr sheet.reconOpeningStock (JSVal.num 0),
    JSVal.num (sheet.openingDifference.getD 0),
    JSVal.num (sheet.closingStockTotal.getD 0),
    jsOr sheet.reconClosingStock (JSVal.num 0),
    JSVal.num (sheet.closingDifference.getD 0),
    JSVal.str (if sheet.hasStockColumns then "Yes" else "No"),
    optionalNumber sheet.openingCount,
    optionalNumber sheet.closingCount,
    optionalString sheet.openingColumnName,
    optionalString sheet.closingColumnName ]

/-- The rows `handleExportToExcel` adds to the worksheet (lines 279-329): the header
row, then one row per record of `reconciliationSheets.forEach`. -/
def handleExportToExcel (reconciliationSheets : List ReconSheet) : List (List JSVal) :=
  exportHeaders :: reconciliationSheets.map exportRow

/-- The data rows of the export, below the header row. -/
def exportDataRows (reconciliationSheets : List ReconSheet) : List (List JSVal) :=
  (handleExportToExcel reconciliationSheets).tail

/-- The sum of the numbers written in one column of the data rows. -/
def exportColumnSum (reconciliationSheets : List ReconSheet) (column : Nat) : Rat :=
  ((exportDataRows reconciliationSheets).map
    (fun row => parseFloatOr0 (jsIndex row column))).sum

/-- The filter state in which `s2` is searched. -/
def searchS2 : FilterState :=
  { searchTerm := "s2", selectedSheetNames := ["S1", "S2"] }

/-! ## Streamed bulk fetch (SuperDashboardTable.jsx, `handleFetchData`)

The text of the stream arrives in chunks; a chunk is the string `decoder.decode(value)`.
`JSON.parse` is a function of the platform and is a parameter `jsonParse` of the
consumer: `none` stands for a text on which `JSON.parse`, or the read of `data.type`
that follows it, throws. -/

/-- The progress marker of the stream. -/
structure Progress where
  processed : Rat := 0
  total : Rat := 0
  deriving DecidableEq, Repr

/-- The summary carried by the completion marker. -/
structure Summary where
  totalSheets : Rat := 0
  deriving DecidableEq, Repr

/-- The value of a parsed line, as far as the consumer inspects it: its `type` and the
fields read for that type; `other` is any value of another type. -/
inductive StreamEvent where
  | progress (data : Progress) : StreamEvent
  | sheet (data : StockSheet) (progress : Option Progress) : StreamEvent
  | complete (summary : Option Summary) : StreamEvent
  | other : StreamEvent
  deriving DecidableEq, Repr

/-- The state the consumer writes: `sheets`, `progress`, `summary`, `loading`,
`isComplete`. -/
structure FetchState where
  sheets : List StockSheet := []
  progress : Option Progress := none
  summary : Option Summary := none
  loading : Bool := true
  isComplete : Bool := false
  deriving DecidableEq, Repr

/-- The pieces of `chunk.split("\n")`, on the characters of the chunk. -/
def splitOnNewline : List Char → List (List Char)
  | [] => [[]]
  | c :: cs =>
    if c = '\n' then [] :: splitOnNewline cs
    else
      match splitOnNewline cs with
      | line :: lines => (c :: line) :: lines
      | [] => [[c]]

/-- The expression `chunk.split("\n")`. -/
def splitLines (chunk : String) : List String :=
  (splitOnNewline chunk.data).map String.mk

/-- The test `line.startsWith("data: ")`. -/
def hasDataPrefix (line : String) : Bool :=
  "data: ".data.isPrefixOf line.data

/-- The expression `line.slice(6)`. -/
def slice6 (line : String) : String :=
  String.mk (line.data.drop 6)

/-- The body of the loop over the lines of a chunk (lines 211-231). -/
def processLine (jsonParse : String → Option StreamEvent) (state : FetchState) (line : String) :
    FetchState :=
  if hasDataPrefix line then
    let jsonStr := slice6 line
    match jsonParse jsonStr with
    | some (StreamEvent.progress data) => { state with progress := some data }
    | some (StreamEvent.sheet data progress) =>
      { state with sheets := state.sheets ++ [data], progress := progress }
    | some (StreamEvent.complete summary) =>
      { state with summary := summary, loading := false, isComplete := true }
    | some StreamEvent.other => state
    | none => state
  else state

/-- The loop `for (const line of lines)` over a sequence of lines. -/
def processLines (jsonParse : String → Option StreamEvent) (state : FetchState)
    (lines : List String) : FetchState :=
  lines.foldl (processLine jsonParse) state

/-- One turn of the `while` loop (lines 208-231): a chunk is split and its lines are
processed. -/
def processChunk (jsonParse : String → Option StreamEvent) (state : FetchState)
    (chunk : String) : FetchState :=
  processLines jsonParse state (splitLines chunk)

/-- The function `handleFetchData` (lines 182-237) on the chunks the reader delivers:
the state after the resets of lines 192-196 and the `while` loop. -/
def handleFetchData (jsonParse : String → Option StreamEvent) (chunks : List String) :
    FetchState :=
  chunks.foldl (processChunk jsonParse) {}

/-- The payload a line contributes to the sheet list, in the words of the spec: the
`data` of a parsable line with the prefix `data: ` whose type is `sheet`. -/
def sheetPayload (jsonParse : String → Option StreamEvent) (line : String) : Option StockSheet :=
  if hasDataPrefix line then
    match jsonParse (slice6 line) with
    | some (StreamEvent.sheet data _) => some data
    | _ => none
  else none

/-- A line is kept when it has the prefix `data: ` and its payload is parsable. -/
def isParsableLine (jsonParse : String → Option StreamEvent) (line : String) : Bool :=
  hasDataPrefix line && (jsonParse (slice6 line)).isSome

/-- The payload text of the sheet line of the scenario,
`\x7b"type":"sheet","data":\x7b"sheetName":"S1"\x7d\x7d`. -/
def sheetPayloadText : String :=
  "\x7b\"type\":\"sheet\",\"data\":\x7b\"sheetName\":\"S1\"\x7d\x7d"

/-- The function `JSON.parse` on the texts of the scenario: the payload text of the sheet line
is read as the sheet event for `S1`; the other texts that occur (cut payloads, the
word `oops`) are not JSON. -/
def scenarioJsonParse (text : String) : Option StreamEvent :=
  if text = sheetPayloadText then some (StreamEvent.sheet { sheetName := "S1" } none)
  else none

/-- The stream text of the scenario: one sheet line and its line feed. -/
def sheetLineText : String :=
  "data: " ++ sheetPayloadText ++ "\n"

/-! ## Name validation (SheetCreate/Main.jsx, Groups/utils/GroupsHelper.jsx) -/

/-- The method `trim` on the characters of a string. -/
def trimChars (cs : List Char) : List Char :=
  ((cs.dropWhile isStrWhiteSpace).reverse.dropWhile isStrWhiteSpace).reverse

/-- The method `trim`. -/
def trim (s : String) : String :=
  String.mk (trimChars s.data)

/-- The property `length` of a string: the number of UTF-16 code units. -/
def jsLength (s : String) : Nat :=
  (s.data.map (fun c => if c.toNat < 65536 then 1 else 2)).sum

/-- A record of the metadata delivered by `fetchMetadata`.  The shape of the
sheet-definition service names a sheet `sheetName`; it has no property `name`, which
is `none` for a record in that shape. -/
structure SheetMetadata where
  id : String := ""
  sheetName : String
  groupName : Option String := none
  name : Option String := none
  deriving DecidableEq, Repr

/-- The outcome of `validateSheetName`: the value returned and the text of
`sheetNameError`. -/
structure SheetNameCheck where
  valid : Bool
  sheetNameError : String
  deriving DecidableEq, Repr

/-- The call `existingSheets.some((sheet) => sheet.name.toLowerCase() === normalizedName)`
(lines 64-66): the records are visited in order until one matches; `toLowerCase` on
a missing `name` throws.  `lower` is the method `toLowerCase` of the platform. -/
def someDuplicate (lower : String → String) (normalizedName : String) :
    List SheetMetadata → Except JsError Bool
  | [] => Except.ok false
  | sheet :: rest =>
    match sheet.name with
    | none => Except.error (JsError.typeError "sheet.name is undefined")
    | some existing =>
      if lower existing = normalizedName then Except.ok true
      else someDuplicate lower normalizedName rest

/-- The function `validateSheetName` (SheetCreate/Main.jsx, lines 55-77); `lower` is
the method `toLowerCase` of the platform. -/
def validateSheetName (lower : String → String) (existingSheets : List SheetMetadata)
    (name : String) : Except JsError SheetNameCheck :=
  if trim name = "" then
    Except.ok { valid := false, sheetNameError := "Sheet name is required" }
  else
    let normalizedName := lower (trim name)
    match someDuplicate lower normalizedName existingSheets with
    | Except.error e => Except.error e
    | Except.ok true =>
      Except.ok { valid := false, sheetNameError := "A sheet with this name already exists" }
    | Except.ok false => Except.ok { valid := true, sheetNameError := "" }

/-- The object `errors` returned by `validateGroupName`. -/
structure GroupErrors where
  name : Option String := none
  sheets : Option String := none
  deriving DecidableEq, Repr

/-- The characters of the class `[",\x27@#%$^&*()]` of line 486, by code. -/
def invalidGroupChars : List Nat :=
  [34, 44, 39, 64, 35, 37, 36, 94, 38, 42, 40, 41]

/-- The test of line 486: the name holds one of the characters of the class. -/
def hasInvalidChar (name : String) : Bool :=
  name.data.any (fun c => invalidGroupChars.contains c.toNat)

/-- The function `validateGroupName` (GroupsHelper.jsx, lines 477-497). -/
def validateGroupName (existingGroups : List String) (selectedSheetsForGroup : List String)
    (name : String) : GroupErrors :=
  let nameError : Option String :=
    if trim name = "" then some "Group name is required"
    else if jsLength name < 2 then some "Group name must be at least 2 characters"
    else if jsLength name > 50 then some "Group name must be less than 50 characters"
    else if hasInvalidChar name then some "Group name contains invalid characters"
    else if existingGroups.contains (trim name) then some "Group name already exists"
    else none
  let sheetsError : Option String :=
    if selectedSheetsForGroup.length = 0 then some "At least one sheet must be selected"
    else none
  { name := nameError, sheets := sheetsError }

/-- A group name of 50 letters. -/
def fiftyLetters : String :=
  String.mk (List.replicate 50 'a')

/-- A group name of 51 letters. -/
def fiftyOneLetters : String :=
  String.mk (List.replicate 51 'a')

/-! ## The new-period preview of a recurrent column (ViewTable.jsx) -/

/-- The call `value.toString()`.  It throws on `undefined` and `null`.  The string of
a number is represented by the number, which `parseFloat` reads back from it. -/
def jsToString : JSVal → Except JsError JSVal
  | JSVal.undefined => Except.error (JsError.typeError "undefined has no toString")
  | JSVal.null => Except.error (JsError.typeError "null has no toString")
  | JSVal.bool b => Except.ok (JSVal.str (if b then "true" else "false"))
  | JSVal.num r => Except.ok (JSVal.num r)
  | JSVal.str t => Except.ok (JSVal.str t)

/-- The function `getRecurrentValueForDisplay` (ViewTable.jsx, lines 402-422). -/
def getRecurrentValueForDisplay (currentSheet : Sheet) (attr : Attribute) :
    Except JsError JSVal :=
  if !attr.isRecurrent then Except.ok (JSVal.str "0")
  else
    let referenceColumnIndex :=
      match attr.recurrentCheck with
      | some rc => rc.recurrentReferenceIndice
      | none => none
    match referenceColumnIndex.bind currentSheet.attr with
    | some refColumn =>
      if refColumn.data.length > 0 then
        let lastValue := jsIndex refColumn.data (refColumn.data.length - 1)
        if lastValue ≠ JSVal.undefined ∧ lastValue ≠ JSVal.str "" then jsToString lastValue
        else Except.ok (JSVal.str "0")
      else Except.ok (JSVal.str "0")
    | none => Except.ok (JSVal.str "0")

/-- The recurrence scenario in which the last stored value of `A` is `null`. -/
def nullLastSheet : Sheet :=
  { attributes :=
      [ { name := "Date", data := [JSVal.str "1 Jan 2025", JSVal.str "2 Jan 2025"] },
        { name := "A", data := [JSVal.num 10, JSVal.null] },
        recurrentR ] }

/-! ## Excel export of a sheet (ExcelExportComponent.jsx, `processSheetData`) -/

/-- An entry of `orderedAttrs`: an attribute with its position in the metadata; the
blank separator has the position `-1`. -/
structure OrderedItem where
  attr : Attribute
  index : Int
  deriving DecidableEq, Repr

/-- The three arrays filled by the loop of lines 84-92. -/
structure AttrClasses where
  visibleAttrs : List OrderedItem := []
  hiddenAttrs : List OrderedItem := []
  deletedAttrs : List OrderedItem := []
  deriving DecidableEq, Repr

/-- The body of `sheetMeta.attributes.forEach((attr, index) => …)` (lines 84-92). -/
def classifyStep (classes : AttrClasses) (entry : Nat × Attribute) : AttrClasses :=
  if entry.2.isDeleted then
    { classes with deletedAttrs := classes.deletedAttrs ++ [{ attr := entry.2, index := entry.1 }] }
  else if entry.2.isHidden then
    { classes with hiddenAttrs := classes.hiddenAttrs ++ [{ attr := entry.2, index := entry.1 }] }
  else
    { classes with visibleAttrs := classes.visibleAttrs ++ [{ attr := entry.2, index := entry.1 }] }

/-- The three classes after the loop of lines 84-92. -/
def classify (attributes : List Attribute) : AttrClasses :=
  attributes.enum.foldl classifyStep {}

/-- The blank separator `{ attr: { name: 'SEPARATOR' }, index: -1 }` (line 98). -/
def separatorItem : OrderedItem :=
  { attr := { name := "SEPARATOR" }, index := -1 }

/-- The list `orderedAttrs` (lines 95-100). -/
def orderedAttrs (attributes : List Attribute) : List OrderedItem :=
  (classify attributes).visibleAttrs ++ (classify attributes).hiddenAttrs ++
    [separatorItem] ++ (classify attributes).deletedAttrs

/-- A character of the class `\w`. -/
def isWordChar (c : Char) : Bool :=
  c.isAlphanum || c = '_'

/-- The replacement `.replace(/\b\w/g, (l) => l.toUpperCase())` on characters;
`prevWord` tells whether the character before is of the class `\w`. -/
def capitalizeWords : Bool → List Char → List Char
  | _, [] => []
  | prevWord, c :: cs =>
    (if isWordChar c && !prevWord then c.toUpper else c) :: capitalizeWords (isWordChar c) cs

/-- The function `formatAttributeName` (lines 72-74). -/
def formatAttributeName (name : String) : String :=
  String.mk (capitalizeWords false (name.data.map (fun c => if c = '_' then ' ' else c)))

/-- The header row (lines 107-109). -/
def exportHeaderRow (attributes : List Attribute) : List JSVal :=
  (orderedAttrs attributes).map (fun item =>
    if item.index = -1 then JSVal.str "" else JSVal.str (formatAttributeName item.attr.name))

/-- One record of `sheetData`: the values of a period, by attribute position. -/
structure ExportRecord where
  attributes : List JSVal
  deriving DecidableEq, Repr

/-- The state of the loops of lines 117-145: the row under construction, `totals`
and `isNumericColumn`. -/
structure RowState where
  row : List JSVal := []
  totals : List Rat
  isNumericColumn : List Bool
  deriving DecidableEq, Repr

/-- The body of `orderedAttrs.forEach((item, newIndex) => …)` (lines 119-143);
`formatDate` is `(value) => new Date(value).toLocaleDateString()`. -/
def cellStep (formatDate : JSVal → String) (record : ExportRecord) (state : RowState)
    (entry : Nat × OrderedItem) : RowState :=
  let item := entry.2
  let newIndex := entry.1
  if item.index = -1 then
    { state with
      row := state.row ++ [JSVal.str ""],
      isNumericColumn := state.isNumericColumn.set newIndex false }
  else
    let value := jsIndex record.attributes item.index.toNat
    if includes (toLowerCase item.attr.name) "date" then
      { state with
        row := state.row ++
          [match value with
            | JSVal.str t => JSVal.str t
            | other => JSVal.str (formatDate other)],
        isNumericColumn := state.isNumericColumn.set newIndex false }
    else
      let numValue : Rat :=
        match value with
        | JSVal.num r => r
        | other => parseFloatOr0 other
      { state with
        row := state.row ++ [JSVal.num numValue],
        totals :=
          if state.isNumericColumn.getD newIndex false then
            state.totals.modify (fun total => total + numValue) newIndex
          else state.totals }

/-- The state of the loop over the records: the rows pushed so far, `totals` and
`isNumericColumn`. -/
structure SheetState where
  rows : List (List JSVal) := []
  totals : List Rat
  isNumericColumn : List Bool
  deriving DecidableEq, Repr

/-- The body of `sheetData.forEach((record) => …)` (lines 117-145). -/
def recordStep (formatDate : JSVal → String) (ordered : List OrderedItem) (state : SheetState)
    (record : ExportRecord) : SheetState :=
  let after := ordered.enum.foldl (cellStep formatDate record)
    { row := [], totals := state.totals, isNumericColumn := state.isNumericColumn }
  { rows := state.rows ++ [after.row], totals := after.totals,
    isNumericColumn := after.isNumericColumn }

/-- The state after the loop over the records (lines 113-145). -/
def processRecords (formatDate : JSVal → String) (attributes : List Attribute)
    (sheetData : List ExportRecord) : SheetState :=
  sheetData.foldl (recordStep formatDate (orderedAttrs attributes))
    { rows := [],
      totals := List.replicate (orderedAttrs attributes).length 0,
      isNumericColumn := List.replicate (orderedAttrs attributes).length true }

/-- The data rows of the worksheet, one per record. -/
def exportDataRowsOf (formatDate : JSVal → String) (attributes : List Attribute)
    (sheetData : List ExportRecord) : List (List JSVal) :=
  (processRecords formatDate attributes sheetData).rows

/-- The totals row (lines 148-151). -/
def exportTotalsRow (formatDate : JSVal → String) (attributes : List Attribute)
    (sheetData : List ExportRecord) : List JSVal :=
  let state := processRecords formatDate attributes sheetData
  (state.totals.enum.map (fun entry =>
    if state.isNumericColumn.getD entry.1 false then JSVal.num entry.2 else JSVal.str "")).set 0
      (JSVal.str "TOTAL")

/-- The metadata of the exported sheet. -/
structure ExportSheetMeta where
  id : String := ""
  sheetName : String
  attributes : List Attribute
  deriving DecidableEq, Repr

/-- The function `processSheetData` (lines 76-164): the rows of `worksheetData`. -/
def processSheetData (formatDate : JSVal → String) (sheetMeta : ExportSheetMeta)
    (sheetData : List ExportRecord) : List (List JSVal) :=
  [[JSVal.str ("Sheet: " ++ sheetMeta.sheetName ++ " | ID: " ++ sheetMeta.id)], [],
    exportHeaderRow sheetMeta.attributes] ++
    exportDataRowsOf formatDate sheetMeta.attributes sheetData ++
    [exportTotalsRow formatDate sheetMeta.attributes sheetData]

/-- The class of an attribute in the export: deleted, else hidden, else visible. -/
inductive AttrClass where
  | visible
  | hidden
  | deleted
  deriving DecidableEq, Repr

/-- The class of an attribute, in the words of the export: a deleted attribute is
deleted whether hidden or not, a hidden one is hidden when it is not deleted. -/
def attrClassOf (attr : Attribute) : AttrClass :=
  if attr.isDeleted then AttrClass.deleted
  else if attr.isHidden then AttrClass.hidden
  else AttrClass.visible

/-- The attributes of a class with their positions, in their original order. -/
def itemsOfClass (attributes : List Attribute) (cls : AttrClass) : List OrderedItem :=
  (attributes.enum.filter (fun entry => decide (attrClassOf entry.2 = cls))).map
    (fun entry => { attr := entry.2, index := entry.1 })

/-- A date formatter for the scenarios. -/
def scenarioFormatDate (_value : JSVal) : String := "1/1/2025"

/-- A sheet with a visible, a deleted, a hidden and a visible attribute. -/
def exportMeta : ExportSheetMeta :=
  { id := "42", sheetName := "Stock",
    attributes :=
      [ { name := "date" }, { name := "old_stock", isDeleted := true },
        { name := "note", isHidden := true }, { name := "closing_stock" } ] }

/-! ## The sort callback of `sortedSheets` (ReconciliationPage.jsx, lines 181-216) -/

/-- Reads an optional exponent part and returns what follows it; an `e` without digits
is not read. -/
def readExponentRest : List Char → Int × List Char
  | [] => (0, [])
  | c :: cs =>
    if c = 'e' || c = 'E' then
      match cs with
      | '-' :: ds =>
        match readDigits ds 0 0 with
        | (v, n, rest) => if n = 0 then (0, c :: cs) else (- (v : Int), rest)
      | '+' :: ds =>
        match readDigits ds 0 0 with
        | (v, n, rest) => if n = 0 then (0, c :: cs) else ((v : Int), rest)
      | ds =>
        match readDigits ds 0 0 with
        | (v, n, rest) => if n = 0 then (0, c :: cs) else ((v : Int), rest)
    else (0, c :: cs)

/-- Reads an unsigned decimal literal and returns what follows it. -/
def readUnsignedRest (cs : List Char) : Option (Rat × List Char) :=
  match readDigits cs 0 0 with
  | (ip, n, rest) =>
    match rest with
    | '.' :: fs =>
      match readDigits fs 0 0 with
      | (fp, m, rest2) =>
        if n = 0 ∧ m = 0 then none
        else
          some (scale10 ((ip : Rat) + (fp : Rat) / (10 : Rat) ^ m) (readExponentRest rest2).1,
            (readExponentRest rest2).2)
    | _ =>
      if n = 0 then none
      else some (scale10 (ip : Rat) (readExponentRest rest).1, (readExponentRest rest).2)

/-- The conversion of a string to a number (`StringToNumber`): the trimmed string is
empty (0) or a decimal literal as a whole; `none` is `NaN`.  Hexadecimal, octal and
binary literals and `Infinity` are not read. -/
def stringToNumber (s : String) : Option Rat :=
  match trimChars s.data with
  | [] => some 0
  | '-' :: ds =>
    match readUnsignedRest ds with
    | some (r, []) => some (- r)
    | _ => none
  | '+' :: ds =>
    match readUnsignedRest ds with
    | some (r, []) => some r
    | _ => none
  | ds =>
    match readUnsignedRest ds with
    | some (r, []) => some r
    | _ => none

/-- The conversion `ToNumber`; `none` is `NaN`. -/
def toNumber : JSVal → Option Rat
  | JSVal.undefined => none
  | JSVal.null => some 0
  | JSVal.bool b => some (if b then 1 else 0)
  | JSVal.num r => some r
  | JSVal.str t => stringToNumber t

/-- The expression `a < b`: two strings are compared as strings (by code point here,
by UTF-16 code unit in the source), other values as numbers, and a comparison with
`NaN` is false. -/
def jsLess (a b : JSVal) : Bool :=
  match a, b with
  | JSVal.str x, JSVal.str y => decide (x < y)
  | _, _ =>
    match toNumber a, toNumber b with
    | some x, some y => decide (x < y)
    | _, _ => false

/-- The keys `handleSort` is called with. -/
inductive SortKey where
  | sheetName
  | openingStockTotal
  | reconOpeningStock
  | openingDifference
  | closingStockTotal
  | reconClosingStock
  | closingDifference
  deriving DecidableEq, Repr

/-- The direction of `sortConfig`. -/
inductive SortDirection where
  | asc
  | desc
  deriving DecidableEq, Repr

/-- The state `sortConfig`: `key` is `null` until a column is chosen. -/
structure SortConfig where
  key : Option SortKey := none
  direction : SortDirection := SortDirection.asc
  deriving DecidableEq, Repr

/-- The expression `a[sortConfig.key]`. -/
def sortField (sheet : ReconSheet) : SortKey → JSVal
  | SortKey.sheetName => JSVal.str sheet.sheetName
  | SortKey.openingStockTotal => optionalNumber sheet.openingStockTotal
  | SortKey.reconOpeningStock => sheet.reconOpeningStock
  | SortKey.openingDifference => optionalNumber sheet.openingDifference
  | SortKey.closingStockTotal => optionalNumber sheet.closingStockTotal
  | SortKey.reconClosingStock => sheet.reconClosingStock
  | SortKey.closingDifference => optionalNumber sheet.closingDifference

/-- The group a sheet is sorted under (lines 182-187):
`metaData?.find((m) => m.sheetName === a.sheetName)?.groupName || "Ungrouped"`. -/
def sortGroupOf (metaData : Option (List SheetMeta)) (sheet : ReconSheet) : String :=
  match groupNameOf metaData sheet.sheetName with
  | some group => if group = "" then "Ungrouped" else group
  | none => "Ungrouped"

/-- The values compared inside a group (lines 196-209): the field, lower-cased for the
key `sheetName` (`lower` is the method `toLowerCase` of the platform), and `|| 0` on
both sides when one of them is a number. -/
def sortValues (lower : String → String) (key : SortKey) (a b : ReconSheet) : JSVal × JSVal :=
  let aVal :=
    if key = SortKey.sheetName then jsOr (JSVal.str (lower a.sheetName)) (JSVal.str "")
    else sortField a key
  let bVal :=
    if key = SortKey.sheetName then jsOr (JSVal.str (lower b.sheetName)) (JSVal.str "")
    else sortField b key
  if aVal.isNumber || bVal.isNumber then (jsOr aVal (JSVal.num 0), jsOr bVal (JSVal.num 0))
  else (aVal, bVal)

/-- The callback of `sorted.sort((a, b) => …)` (lines 181-216); `localeCompare` is the
collation of the platform, `aGroup.localeCompare(bGroup)`, and `lower` its method
`toLowerCase`. -/
def sortCompare (lower : String → String) (localeCompare : String → String → Int)
    (metaData : Option (List SheetMeta)) (sortConfig : SortConfig) (a b : ReconSheet) : Int :=
  let aGroup := sortGroupOf metaData a
  let bGroup := sortGroupOf metaData b
  if aGroup ≠ bGroup then localeCompare aGroup bGroup
  else
    match sortConfig.key with
    | none => 0
    | some key =>
      let values := sortValues lower key a b
      if jsLess values.1 values.2 then
        (if sortConfig.direction = SortDirection.asc then -1 else 1)
      else if jsLess values.2 values.1 then
        (if sortConfig.direction = SortDirection.asc then 1 else -1)
      else 0

/-- The list `sortedSheets` of the page for a session, a filter state and a sort
configuration, on a platform with the sort `engine`, the method `toLowerCase` as
`lower` and the collation `localeCompare`. -/
def pageSortedSheets (engine : ArraySort) (lower : String → String)
    (localeCompare : String → String → Int) (filter : FilterState)
    (sortConfig : SortConfig) (reconciliationSheets : List ReconSheet) : List ReconSheet :=
  sortedSheets engine (sortCompare lower localeCompare filter.metaData sortConfig)
    (filteredSheets lower filter reconciliationSheets)

/-- The order of two group names under a collation: equal, or not after. -/
def GroupLe (localeCompare : String → String → Int) (x y : String) : Prop :=
  x = y ∨ localeCompare x y ≤ 0

/-- A collation orders the names: two names that are each not after the other are
equal, of two names one is not after the other, and the order is transitive. -/
structure IsCollation (localeCompare : String → String → Int) : Prop where
  antisymm : ∀ a b, localeCompare a b ≤ 0 → localeCompare b a ≤ 0 → a = b
  total : ∀ a b, 0 < localeCompare a b → localeCompare b a ≤ 0
  trans : ∀ a b c, localeCompare a b ≤ 0 → localeCompare b c ≤ 0 → localeCompare a c ≤ 0

/-- A collation for the scenarios: the order of the strings by code point. -/
def codePointCompare (a b : String) : Int :=
  if a < b then -1 else if b < a then 1 else 0

/-- Three stock-pull records `P`, `Q`, `R` with opening totals 3, 1, 2. -/
def stockP : StockSheet := { sheetName := "P", openingStockTotal := some 3 }

/-- The record `Q`. -/
def stockQ : StockSheet := { sheetName := "Q", openingStockTotal := some 1 }

/-- The record `R`. -/
def stockR : StockSheet := { sheetName := "R", openingStockTotal := some 2 }

/-- The filter state over `P`, `Q`, `R` with `P` and `R` in the group `Raw` and `Q`
in the group `Finished`. -/
def groupedView : FilterState :=
  { selectedSheetNames := ["P", "Q", "R"],
    metaData := some
      [ { sheetName := "P", groupName := some "Raw" },
        { sheetName := "Q", groupName := some "Finished" },
        { sheetName := "R", groupName := some "Raw" } ] }

/-- The record `T`, with opening total 5. -/
def stockT : StockSheet := { sheetName := "T", openingStockTotal := some 5 }

/-- The canonical decomposition of a group name of the scenario: the one character
U+00E9 is the letter `e` followed by the combining acute accent U+0301; every other
name of the scenario is its own decomposition. -/
def canonicalName (name : String) : String :=
  if name = "\u00e9" then "e\u0301" else name

/-- A collation for the scenario that, as `localeCompare` does, returns 0 for two
canonically equivalent names, and puts an accented `e` before `z`: the order by code
point of the canonical decompositions. -/
def canonicalCompare (a b : String) : Int :=
  codePointCompare (canonicalName a) (canonicalName b)

/-- The filter state over `P`, `Q`, `R`, `T` with no search term, every sheet
selected and the group `"all"`; the metadata puts `P` and `T` in the group named
U+00E9, `R` in the group named `e` + U+0301, which reads the same, and `Q` in the
group `z`. -/
def accentView : FilterState :=
  { selectedSheetNames := ["P", "Q", "R", "T"],
    metaData := some
      [ { sheetName := "P", groupName := some "\u00e9" },
        { sheetName := "Q", groupName := some "z" },
        { sheetName := "R", groupName := some "e\u0301" },
        { sheetName := "T", groupName := some "\u00e9" } ] }

/-- The method `toLowerCase` on the ASCII letters and the letters of Latin-1 (U+00C0 to
U+00DE without the sign U+00D7, each 32 below its lower-case letter); it is the method
of the platform on a string of such characters. -/
def lowerLatin1 (s : String) : String :=
  String.mk (s.data.map (fun c =>
    if (192 ≤ c.toNat ∧ c.toNat ≤ 222 ∧ c.toNat ≠ 215) then Char.ofNat (c.toNat + 32)
    else c.toLower))

/-- A stock-pull record named `Éclair` (with U+00C9), opening total 1. -/
def stockEclair : StockSheet := { sheetName := "\u00c9clair", openingStockTotal := some 1 }

/-- The filter state over `Éclair` with the search term `é` (U+00E9). -/
def searchAccent : FilterState :=
  { searchTerm := "\u00e9", selectedSheetNames := ["\u00c9clair"] }

/-! ## Auxiliary lemmas -/

theorem foldl_add_eq_sum (g : Nat → Rat) (l : List Nat) (a : Rat) :
    l.foldl (fun t i => t + g i) a = a + (l.map g).sum := by
  induction l generalizing a with
  | nil => simp
  | cons x xs ih => simp [ih, add_assoc]

theorem foldl_sub_eq_sum (g : Nat → Rat) (l : List Nat) (a : Rat) :
    l.foldl (fun t i => t - g i) a = a - (l.map g).sum := by
  induction l generalizing a with
  | nil => simp
  | cons x xs ih => simp [ih, sub_sub]

theorem parseFloatOr0_undefined : parseFloatOr0 JSVal.undefined = 0 := rfl

theorem parseFloatOr0_str_zero : parseFloatOr0 (JSVal.str "0") = 0 := by decide!

theorem parseFloatOr0_str_empty : parseFloatOr0 (JSVal.str "") = 0 := by decide

theorem parseFloatOr0_num (r : Rat) : parseFloatOr0 (JSVal.num r) = r := rfl

/-- The default `|| "0"` does not change the number a stored value denotes. -/
theorem parseFloatOr0_jsOr_zero (v : JSVal) :
    parseFloatOr0 (jsOr v (JSVal.str "0")) = parseFloatOr0 v := by
  cases v with
  | undefined => simp [jsOr, JSVal.truthy, parseFloatOr0_str_zero, parseFloatOr0_undefined]
  | null => simp [jsOr, JSVal.truthy, parseFloatOr0_str_zero]; rfl
  | bool b =>
    cases b
    · simp [jsOr, JSVal.truthy, parseFloatOr0_str_zero]; rfl
    · simp [jsOr, JSVal.truthy]
  | num r =>
    by_cases h : r = 0
    · subst h; simp [jsOr, JSVal.truthy, parseFloatOr0_str_zero, parseFloatOr0_num]
    · simp [jsOr, JSVal.truthy, h]
  | str t =>
    by_cases h : t = ""
    · subst h; simp [jsOr, JSVal.truthy, parseFloatOr0_str_zero, parseFloatOr0_str_empty]
    · simp [jsOr, JSVal.truthy, h]

theorem addStep_eq (sheet : Sheet) (p : Nat) (r : Rat) (i : Nat) :
    addStep sheet p r i = r + storedAt sheet p i := by
  unfold addStep storedAt
  cases h : sheet.attr i with
  | none => simp
  | some a =>
    by_cases hu : jsIndex a.data p = JSVal.undefined
    · simp [hu, parseFloatOr0_undefined]
    · simp [hu]

theorem subStep_eq (sheet : Sheet) (p : Nat) (r : Rat) (i : Nat) :
    subStep sheet p r i = r - storedAt sheet p i := by
  unfold subStep storedAt
  cases h : sheet.attr i with
  | none => simp
  | some a =>
    by_cases hu : jsIndex a.data p = JSVal.undefined
    · simp [hu, parseFloatOr0_undefined]
    · simp [hu]

/-- The value of a derived column with a formula, as sums over its index lists. -/
theorem calculateDerived_eq_stored (sheet : Sheet) (d : Attribute) (f : Formula) (p : Nat)
    (hd : d.derived = true) (hf : d.formula = some f) :
    calculateDerivedValueForDisplay sheet d p =
      JSVal.num (((f.additionIndices.getD []).map (storedAt sheet p)).sum -
        ((f.subtractionIndices.getD []).map (storedAt sheet p)).sum) := by
  unfold calculateDerivedValueForDisplay
  rw [hd, hf]
  simp only
  have ha : addStep sheet p = fun t i => t + storedAt sheet p i := by
    funext t i; exact addStep_eq sheet p t i
  have hs : subStep sheet p = fun t i => t - storedAt sheet p i := by
    funext t i; exact subStep_eq sheet p t i
  rw [ha, hs, foldl_sub_eq_sum, foldl_add_eq_sum]
  simp

/-- A column that is neither derived nor recurrent resolves to the number stored for it. -/
theorem resolvedAt_eq_storedAt (sheet : Sheet) (p i : Nat)
    (h : ∀ a, sheet.attr i = some a →
      getColumnType a = ColumnType.normal ∨ getColumnType a = ColumnType.referenced) :
    resolvedAt sheet p i = storedAt sheet p i := by
  unfold resolvedAt storedAt
  cases ha : sheet.attr i with
  | none => rfl
  | some a =>
    rcases h a ha with hk | hk <;>
      simp [resolve, hk, rowCell, numericValue, parseFloatOr0_jsOr_zero]

/-! ## Derived columns -/

/-- C1 (as stated, refuted): with `D = add[C]` and `C = add[A, B]` a derived column
whose stored data at period 0 is 14, `calculateDerivedValueForDisplay` gives `D` the
stored 14, while `C` resolved by kind is 15: the value of `D` is not the sum of the
resolved values of the columns it adds. -/
theorem derived_two_level_counterexample :
    calculateDerivedValueForDisplay twoLevelSheet twoLevelD 0 = JSVal.num 14 ∧
    twoLevelSheet.attr 4 = some twoLevelD ∧
    getColumnType twoLevelD = ColumnType.derived ∧
    twoLevelD.formula = some { additionIndices := some [3], subtractionIndices := some [] } ∧
    ([3].map (resolvedAt twoLevelSheet 0)).sum -
      (([] : List Nat).map (resolvedAt twoLevelSheet 0)).sum = 15 ∧
    numericValue (calculateDerivedValueForDisplay twoLevelSheet twoLevelD 0) ≠
      ([3].map (resolvedAt twoLevelSheet 0)).sum -
        (([] : List Nat).map (resolvedAt twoLevelSheet 0)).sum := by
  decide!

/-- C1 (amended): for a derived column `d` with a formula and every period `p`,
`calculateDerivedValueForDisplay` returns the sum over the addition indices of the
number stored at `p` for the referenced column minus the same sum over the
subtraction indices (a position without a column or without a value for `p` adds 0);
when every referenced column is a normal or referenced (neither derived nor
recurrent) column, this is the sum of their resolved values minus the sum of the
resolved values of the subtracted columns. -/
theorem derived_value_sum_of_stored (sheet : Sheet) (d : Attribute) (f : Formula) (p : Nat)
    (hd : d.derived = true) (hf : d.formula = some f) :
    calculateDerivedValueForDisplay sheet d p =
        JSVal.num (((f.additionIndices.getD []).map (storedAt sheet p)).sum -
          ((f.subtractionIndices.getD []).map (storedAt sheet p)).sum) ∧
    ((∀ i ∈ f.additionIndices.getD [] ++ f.subtractionIndices.getD [], ∀ a,
        sheet.attr i = some a →
          getColumnType a = ColumnType.normal ∨ getColumnType a = ColumnType.referenced) →
      numericValue (calculateDerivedValueForDisplay sheet d p) =
        ((f.additionIndices.getD []).map (resolvedAt sheet p)).sum -
          ((f.subtractionIndices.getD []).map (resolvedAt sheet p)).sum) := by
  refine ⟨calculateDerived_eq_stored sheet d f p hd hf, fun hk => ?_⟩
  rw [calculateDerived_eq_stored sheet d f p hd hf]
  have h1 : (f.additionIndices.getD []).map (resolvedAt sheet p) =
      (f.additionIndices.getD []).map (storedAt sheet p) :=
    List.map_congr_left (fun i hi =>
      resolvedAt_eq_storedAt sheet p i (hk i (List.mem_append_left _ hi)))
  have h2 : (f.subtractionIndices.getD []).map (resolvedAt sheet p) =
      (f.subtractionIndices.getD []).map (storedAt sheet p) :=
    List.map_congr_left (fun i hi =>
      resolvedAt_eq_storedAt sheet p i (hk i (List.mem_append_right _ hi)))
  rw [h1, h2]
  rfl

/-- The scenario of the spec: `C = add[A, B]` over `{A:10,B:5}`, `{A:3,B:2}` is 15 and 5. -/
theorem scenario_derived_values :
    calculateDerivedValueForDisplay scenarioSheet scenarioC 0 = JSVal.num 15 ∧
    calculateDerivedValueForDisplay scenarioSheet scenarioC 1 = JSVal.num 5 := by
  decide!

/-- Witness for C1 (amended) on the scenario sheet of the spec at period 0. -/
theorem derived_value_sum_of_stored_witness :
    scenarioC.derived = true ∧
    scenarioC.formula = some { additionIndices := some [1, 2], subtractionIndices := some [] } ∧
    (calculateDerivedValueForDisplay scenarioSheet scenarioC 0 =
        JSVal.num (([1, 2].map (storedAt scenarioSheet 0)).sum -
          (([] : List Nat).map (storedAt scenarioSheet 0)).sum) ∧
      ((∀ i ∈ [1, 2] ++ ([] : List Nat), ∀ a, scenarioSheet.attr i = some a →
          getColumnType a = ColumnType.normal ∨ getColumnType a = ColumnType.referenced) →
        numericValue (calculateDerivedValueForDisplay scenarioSheet scenarioC 0) =
          ([1, 2].map (resolvedAt scenarioSheet 0)).sum -
            (([] : List Nat).map (resolvedAt scenarioSheet 0)).sum)) :=
  ⟨rfl, rfl,
    derived_value_sum_of_stored scenarioSheet scenarioC
      { additionIndices := some [1, 2], subtractionIndices := some [] } 0 rfl rfl⟩

/-! ## The totals row -/

theorem derivedTotal_eq_sum (sheet : Sheet) (d : Attribute) :
    derivedTotal sheet d = sumOverPeriods sheet (calculateDerivedValueForDisplay sheet d) := by
  unfold derivedTotal sumOverPeriods
  rw [foldl_add_eq_sum (fun i => numericValue (calculateDerivedValueForDisplay sheet d i))]
  simp

theorem recurrentTotal_eq_sum (sheet : Sheet) (r : Attribute) (ci : Nat) :
    recurrentTotal sheet r ci =
      sumOverPeriods sheet (calculateRecurrentValue sheet r ci) +
        numericValue (calculateRecurrentValue sheet r ci (numRows sheet)) := by
  unfold recurrentTotal sumOverPeriods
  rw [foldl_add_eq_sum (fun i => numericValue (calculateRecurrentValue sheet r ci i))]
  simp [List.range_succ]

/-- C2 (as stated, refuted): the derived column named `DATE` of `dateNamedSheet` has
the per-period values 10 and 3, yet its totals-row entry is the label `"Total"`, not
their sum 13. -/
theorem derived_total_date_counterexample :
    dateNamedSheet.attr 2 = some dateNamedDerived ∧
    getColumnType dateNamedDerived = ColumnType.derived ∧
    sumOverPeriods dateNamedSheet (calculateDerivedValueForDisplay dateNamedSheet dateNamedDerived)
      = 13 ∧
    totalsEntry dateNamedSheet dateNamedDerived 2 = JSVal.str "Total" ∧
    totalsEntry dateNamedSheet dateNamedDerived 2 ≠
      JSVal.num (sumOverPeriods dateNamedSheet
        (calculateDerivedValueForDisplay dateNamedSheet dateNamedDerived)) := by
  decide!

/-- C2 (amended): for a derived column `d` whose name is not `date` in any letter
case, the totals-row entry of `d` is the sum over the periods `0 .. numRows - 1` of
the per-period value `calculateDerivedValueForDisplay d p`. -/
theorem derived_total_eq_sum_of_periods (sheet : Sheet) (d : Attribute) (cellIndex : Nat)
    (hname : toLowerCase d.name ≠ "date")
    (hk : getColumnType d = ColumnType.derived) :
    totalsEntry sheet d cellIndex =
      JSVal.num (sumOverPeriods sheet (calculateDerivedValueForDisplay sheet d)) := by
  unfold totalsEntry
  rw [if_neg hname, hk]
  simp only
  rw [derivedTotal_eq_sum]

/-- Witness for C2 (amended): `C = add[A, B]` over `{A:10,B:5}`, `{A:3,B:2}`. -/
theorem derived_total_eq_sum_of_periods_witness :
    toLowerCase scenarioC.name ≠ "date" ∧
    getColumnType scenarioC = ColumnType.derived ∧
    totalsEntry scenarioSheet scenarioC 3 =
      JSVal.num (sumOverPeriods scenarioSheet
        (calculateDerivedValueForDisplay scenarioSheet scenarioC)) :=
  ⟨by decide, by decide,
    derived_total_eq_sum_of_periods scenarioSheet scenarioC 3 (by decide) (by decide)⟩

/-- The scenario of the spec: the total of `C` is 20. -/
theorem scenario_derived_total :
    totalsEntry scenarioSheet scenarioC 3 = JSVal.num 20 := by
  decide!

/-- C3 (the code at the failing input): on `[Date, A, R]` with `A = [10, 3]`, two
periods and `R` recurrent on `A`, the resolved values of `R` over the periods 0 and 1
are 0 and 10 and sum to 10, but the totals-row entry of `R` is 13: the loop also
adds the value computed for the row index 2, which is not a period of the table. -/
theorem recurrent_total_off_by_one :
    recurrentSheet.attr 2 = some recurrentR ∧
    getColumnType recurrentR = ColumnType.recurrent ∧
    numRows recurrentSheet = 2 ∧
    sumOverPeriods recurrentSheet (calculateRecurrentValue recurrentSheet recurrentR 2) = 10 ∧
    calculateRecurrentValue recurrentSheet recurrentR 2 2 = JSVal.num 3 ∧
    totalsEntry recurrentSheet recurrentR 2 = JSVal.num 13 := by
  decide!

/-! ## Recurrent columns -/

/-- The value of a recurrent column after the first period, when its reference
column exists: the cell stored for the reference column one period earlier. -/
theorem calculateRecurrent_succ (sheet : Sheet) (r : Attribute) (rc : RecurrentCheck)
    (refIdx : Nat) (x : Attribute) (ci p : Nat)
    (hr : r.recurrentCheck = some rc) (hrec : rc.isRecurrent = true)
    (hidx : rc.recurrentReferenceIndice = some refIdx) (hx : sheet.attr refIdx = some x) :
    calculateRecurrentValue sheet r ci (p + 1) = rowCell x p := by
  have hisrec : r.isRecurrent = true := by simp [Attribute.isRecurrent, hr, hrec]
  unfold calculateRecurrentValue
  simp [hisrec, hr, hidx, hx, rowCell]

/-- C4 (as stated, refuted): `R` is recurrent on the derived column `C = add[A, B]`
whose stored data at period 0 is 14 and holds no data of its own; its value at
period 1 is the stored 14, while `C` resolved by kind at period 0 is 15. -/
theorem recurrent_of_derived_counterexample :
    recurrentOfDerivedSheet.attr 4 = some recurrentOfDerivedR ∧
    recurrentOfDerivedSheet.attr 3 = some staleC ∧
    getColumnType recurrentOfDerivedR = ColumnType.recurrent ∧
    jsIndex recurrentOfDerivedR.data 1 = JSVal.undefined ∧
    calculateRecurrentValue recurrentOfDerivedSheet recurrentOfDerivedR 4 1 = JSVal.num 14 ∧
    resolve recurrentOfDerivedSheet staleC 3 0 = JSVal.num 15 ∧
    numericValue (calculateRecurrentValue recurrentOfDerivedSheet recurrentOfDerivedR 4 1) ≠
      numericValue (resolve recurrentOfDerivedSheet staleC 3 0) := by
  decide!

/-- C4 (amended): for a recurrent column `r` whose reference column `x` exists and
every period `p > 0`, `calculateRecurrentValue r p` is the cell stored for `x` at
period `p - 1` (`x.data[p-1] || "0"`), not a value of `r`; this is the resolved value
of `x` at `p - 1` whenever `x` is a normal or referenced column (neither derived nor
recurrent). -/
theorem recurrent_value_is_reference_previous (sheet : Sheet) (r : Attribute)
    (rc : RecurrentCheck) (refIdx : Nat) (x : Attribute) (ci p : Nat)
    (hr : r.recurrentCheck = some rc) (hrec : rc.isRecurrent = true)
    (hidx : rc.recurrentReferenceIndice = some refIdx) (hx : sheet.attr refIdx = some x)
    (hp : 0 < p) :
    calculateRecurrentValue sheet r ci p = jsOr (jsIndex x.data (p - 1)) (JSVal.str "0") ∧
    (getColumnType x = ColumnType.normal ∨ getColumnType x = ColumnType.referenced →
      calculateRecurrentValue sheet r ci p = resolve sheet x refIdx (p - 1)) := by
  obtain ⟨q, rfl⟩ : ∃ q, p = q + 1 := ⟨p - 1, by omega⟩
  have h := calculateRecurrent_succ sheet r rc refIdx x ci q hr hrec hidx hx
  refine ⟨by simpa [rowCell] using h, fun hk => ?_⟩
  rw [h]
  rcases hk with hk | hk <;> simp [resolve, hk]

/-- Witness for C4 (amended): `R` referencing `A` with `A = [10, 3]` gives 10 at period 1. -/
theorem recurrent_value_is_reference_previous_witness :
    calculateRecurrentValue recurrentSheet recurrentR 2 1 = JSVal.num 10 ∧
    (calculateRecurrentValue recurrentSheet recurrentR 2 1 =
        jsOr (jsIndex [JSVal.num 10, JSVal.num 3] (1 - 1)) (JSVal.str "0") ∧
      (getColumnType { name := "A", data := [JSVal.num 10, JSVal.num 3] } = ColumnType.normal ∨
          getColumnType { name := "A", data := [JSVal.num 10, JSVal.num 3] } =
            ColumnType.referenced →
        calculateRecurrentValue recurrentSheet recurrentR 2 1 =
          resolve recurrentSheet { name := "A", data := [JSVal.num 10, JSVal.num 3] } 1 (1 - 1))) :=
  ⟨by decide!,
    recurrent_value_is_reference_previous recurrentSheet recurrentR
      { isRecurrent := true, recurrentReferenceIndice := some 1 } 1
      { name := "A", data := [JSVal.num 10, JSVal.num 3] } 2 1 rfl rfl rfl rfl (by decide)⟩

/-- C5: for every recurrent column, whatever its reference index and whatever data
is stored in the sheet or in the column, `calculateRecurrentValue` at period 0 is
`"0"`, the number 0; so is the column resolved by kind. -/
theorem recurrent_first_period_zero (sheet : Sheet) (r : Attribute) (ci : Nat)
    (hrec : r.isRecurrent = true) :
    calculateRecurrentValue sheet r ci 0 = JSVal.str "0" ∧
    numericValue (calculateRecurrentValue sheet r ci 0) = 0 ∧
    (getColumnType r = ColumnType.recurrent → resolve sheet r ci 0 = JSVal.str "0") := by
  have h : calculateRecurrentValue sheet r ci 0 = JSVal.str "0" := by
    unfold calculateRecurrentValue
    simp only [hrec, Bool.not_true, Bool.false_eq_true, if_false]
    cases (match r.recurrentCheck with
      | some rc => rc.recurrentReferenceIndice
      | none => none).bind sheet.attr <;> rfl
  refine ⟨h, ?_, fun hk => ?_⟩
  · rw [h]; exact parseFloatOr0_str_zero
  · simp [resolve, hk, h]

/-- Witness for C5: the recurrent column `R` with a recorded value, at period 0. -/
theorem recurrent_first_period_zero_witness :
    overrideR.isRecurrent = true ∧
    (calculateRecurrentValue overrideSheet overrideR 2 0 = JSVal.str "0" ∧
      numericValue (calculateRecurrentValue overrideSheet overrideR 2 0) = 0 ∧
      (getColumnType overrideR = ColumnType.recurrent →
        resolve overrideSheet overrideR 2 0 = JSVal.str "0")) :=
  ⟨rfl, recurrent_first_period_zero overrideSheet overrideR 2 rfl⟩

/-- C6 (as stated, refuted): `R` has the value 7 recorded for period 1 and is
recurrent on `A = [10, 3]`; `calculateRecurrentValue` at period 1 is 10, the previous
value of `A`, not the recorded 7. -/
theorem recurrent_override_counterexample :
    overrideSheet.attr 2 = some overrideR ∧
    getColumnType overrideR = ColumnType.recurrent ∧
    jsIndex overrideR.data 1 = JSVal.num 7 ∧
    calculateRecurrentValue overrideSheet overrideR 2 1 = JSVal.num 10 ∧
    calculateRecurrentValue overrideSheet overrideR 2 1 ≠ jsIndex overrideR.data 1 := by
  decide!

/-- C6 (amended): the data recorded in a recurrent column is not consulted: for
every recurrent column `r` and every period, `calculateRecurrentValue` gives the
same result whatever `data` the column argument holds. -/
theorem recurrent_value_ignores_own_data (sheet : Sheet) (r : Attribute) (ci p : Nat)
    (own : List JSVal) (hrec : r.isRecurrent = true) :
    calculateRecurrentValue sheet { r with data := own } ci p =
      calculateRecurrentValue sheet r ci p := by
  have hrec2 : ({ r with data := own } : Attribute).isRecurrent = true := hrec
  unfold calculateRecurrentValue
  simp only [hrec, hrec2, Bool.not_true, Bool.false_eq_true, if_false]

/-- Witness for C6 (amended): recording 7 for period 1 leaves the value of `R` unchanged. -/
theorem recurrent_value_ignores_own_data_witness :
    recurrentR.isRecurrent = true ∧
    calculateRecurrentValue recurrentSheet
        { recurrentR with data := [JSVal.null, JSVal.num 7] } 2 1 =
      calculateRecurrentValue recurrentSheet recurrentR 2 1 :=
  ⟨rfl, recurrent_value_ignores_own_data recurrentSheet recurrentR 2 1
    [JSVal.null, JSVal.num 7] rfl⟩

/-! ## Independent columns -/

/-- C7: for a normal (independent) column `c` and every period `p`, each resolver of
the source (the row cell, `calculateRecurrentValue`, `calculateDerivedValueForDisplay`
and the dispatch by kind) returns the stored cell `c.data[p] || "0"`: the raw value
itself when it is truthy, `"0"` when none is stored for the period (or the stored one
is falsy), and in every case the number the raw value denotes (0 when absent). -/
theorem independent_value_is_stored (sheet : Sheet) (c : Attribute) (ci p : Nat)
    (hk : getColumnType c = ColumnType.normal) :
    resolve sheet c ci p = rowCell c p ∧
    calculateRecurrentValue sheet c ci p = rowCell c p ∧
    calculateDerivedValueForDisplay sheet c p = rowCell c p ∧
    ((jsIndex c.data p).truthy = true → rowCell c p = jsIndex c.data p) ∧
    ((jsIndex c.data p).truthy = false → rowCell c p = JSVal.str "0") ∧
    (c.data.length ≤ p → rowCell c p = JSVal.str "0" ∧ numericValue (rowCell c p) = 0) ∧
    numericValue (rowCell c p) = parseFloatOr0 (jsIndex c.data p) := by
  have hder : c.derived = false := by
    unfold getColumnType at hk
    cases hd : c.derived with
    | false => rfl
    | true => simp [hd] at hk
  have hrec : c.isRecurrent = false := by
    unfold getColumnType at hk
    cases hr : c.isRecurrent with
    | false => rfl
    | true => rw [hder] at hk; split_ifs at hk
  have habs : c.data.length ≤ p → rowCell c p = JSVal.str "0" := by
    intro hlen
    have : c.data.get? p = none := List.get?_eq_none.mpr hlen
    unfold rowCell jsIndex
    rw [this]
    rfl
  refine ⟨by simp [resolve, hk], ?_, ?_, ?_, ?_, ?_, ?_⟩
  · simp [calculateRecurrentValue, hrec, rowCell]
  · simp [calculateDerivedValueForDisplay, hder, rowCell]
  · intro ht; simp [rowCell, jsOr, ht]
  · intro ht; simp [rowCell, jsOr, ht]
  · intro hlen
    refine ⟨habs hlen, ?_⟩
    rw [habs hlen]; exact parseFloatOr0_str_zero
  · exact parseFloatOr0_jsOr_zero _

/-- Witness for C7: column `A` of the scenario sheet at period 0 and beyond its data. -/
theorem independent_value_is_stored_witness :
    getColumnType scenarioA = ColumnType.normal ∧
    rowCell scenarioA 0 = JSVal.num 10 ∧
    rowCell scenarioA 5 = JSVal.str "0" ∧
    (resolve scenarioSheet scenarioA 1 0 = rowCell scenarioA 0 ∧
      calculateRecurrentValue scenarioSheet scenarioA 1 0 = rowCell scenarioA 0 ∧
      calculateDerivedValueForDisplay scenarioSheet scenarioA 0 = rowCell scenarioA 0 ∧
      ((jsIndex scenarioA.data 0).truthy = true → rowCell scenarioA 0 = jsIndex scenarioA.data 0) ∧
      ((jsIndex scenarioA.data 0).truthy = false → rowCell scenarioA 0 = JSVal.str "0") ∧
      (scenarioA.data.length ≤ 0 →
        rowCell scenarioA 0 = JSVal.str "0" ∧ numericValue (rowCell scenarioA 0) = 0) ∧
      numericValue (rowCell scenarioA 0) = parseFloatOr0 (jsIndex scenarioA.data 0)) :=
  ⟨by decide, by decide!, by decide!,
    independent_value_is_stored scenarioSheet scenarioA 1 0 (by decide)⟩

/-- C8 (the code at the failing input): the independent column `A` stores its values
as the numeric strings `"10"` and `"3"`; its displayed values denote 10 and 3 and sum
to 13, and the derived column `S = add[A]` has the total 13, but the totals-row entry
of `A` is 0, because only values whose `typeof` is `"number"` are added. -/
theorem normal_total_skips_numeric_strings :
    stringSheet.attr 1 = some stringA ∧
    getColumnType stringA = ColumnType.normal ∧
    resolve stringSheet stringA 1 0 = JSVal.str "10" ∧
    resolve stringSheet stringA 1 1 = JSVal.str "3" ∧
    sumOverPeriods stringSheet (resolve stringSheet stringA 1) = 13 ∧
    totalsEntry stringSheet stringS 2 = JSVal.num 13 ∧
    totalsEntry stringSheet stringA 1 = JSVal.num 0 := by
  decide!

/-! ## Formula errors -/

theorem storedAt_out_of_range (sheet : Sheet) (p i : Nat)
    (h : ¬ i < sheet.attributes.length) : storedAt sheet p i = 0 := by
  unfold storedAt Sheet.attr
  rw [List.get?_eq_none.mpr (Nat.le_of_not_lt h)]

theorem sum_map_filter_of_zero (g : Nat → Rat) (keep : Nat → Bool) (l : List Nat)
    (h : ∀ i, keep i = false → g i = 0) :
    ((l.filter keep).map g).sum = (l.map g).sum := by
  induction l with
  | nil => rfl
  | cons x xs ih =>
    cases hx : keep x with
    | true => simp [List.filter, hx, ih]
    | false => simp [List.filter, hx, ih, h x hx]

/-- C9 (as stated, refuted): in the cyclic definition `X = add[Y]`, `Y = add[X]` with
6 stored for `Y`, resolving `X` at period 0 returns the number 6; no error is raised. -/
theorem cyclic_derived_counterexample :
    cyclicSheet.attr 1 = some cyclicX ∧
    cyclicSheet.attr 2 = some cyclicY ∧
    getColumnType cyclicX = ColumnType.derived ∧
    getColumnType cyclicY = ColumnType.derived ∧
    cyclicX.formula = some { additionIndices := some [2], subtractionIndices := some [] } ∧
    cyclicY.formula = some { additionIndices := some [1], subtractionIndices := some [] } ∧
    calculateDerivedValueForDisplay cyclicSheet cyclicX 0 = JSVal.num 6 ∧
    (calculateDerivedValueForDisplay cyclicSheet cyclicX 0).isNumber = true := by
  decide!

/-- C9 (amended): for a cyclic derived definition (column `X` at position `i` adds only
the column at position `j`, which is `Y`, and `Y` adds only position `i`), resolving `X`
at any period returns a number, the number stored for `Y` at that period
(`parseFloat(Y.data[p]) || 0`): the formula of `Y` is not followed, no error is raised. -/
theorem cyclic_derived_returns_stored (sheet : Sheet) (X Y : Attribute) (fX fY : Formula)
    (i j p : Nat)
    (hX : sheet.attr i = some X) (hY : sheet.attr j = some Y)
    (hXd : X.derived = true) (hXf : X.formula = some fX)
    (hYd : Y.derived = true) (hYf : Y.formula = some fY)
    (hXa : fX.additionIndices.getD [] = [j]) (hXs : fX.subtractionIndices.getD [] = [])
    (hYa : fY.additionIndices.getD [] = [i]) (hYs : fY.subtractionIndices.getD [] = []) :
    calculateDerivedValueForDisplay sheet X p = JSVal.num (parseFloatOr0 (jsIndex Y.data p)) ∧
    calculateDerivedValueForDisplay sheet Y p = JSVal.num (parseFloatOr0 (jsIndex X.data p)) := by
  rw [calculateDerived_eq_stored sheet X fX p hXd hXf,
    calculateDerived_eq_stored sheet Y fY p hYd hYf, hXa, hXs, hYa, hYs]
  simp [storedAt, hX, hY]

/-- Witness for C9 (amended): the cyclic sheet of the spec's scenario. -/
theorem cyclic_derived_returns_stored_witness :
    calculateDerivedValueForDisplay cyclicSheet cyclicX 0 =
      JSVal.num (parseFloatOr0 (jsIndex cyclicY.data 0)) ∧
    calculateDerivedValueForDisplay cyclicSheet cyclicY 0 =
      JSVal.num (parseFloatOr0 (jsIndex cyclicX.data 0)) :=
  cyclic_derived_returns_stored cyclicSheet cyclicX cyclicY
    { additionIndices := some [2], subtractionIndices := some [] }
    { additionIndices := some [1], subtractionIndices := some [] }
    1 2 0 rfl rfl rfl rfl rfl rfl rfl rfl rfl rfl

/-- C10 (as stated, refuted): `C = add[A, column 7]` in a sheet of three columns has an
addition index that is not a column position; resolving `C` at period 0 returns the
number 10, the value of `A`. -/
theorem derived_out_of_range_counterexample :
    outOfRangeSheet.attr 2 = some outOfRangeC ∧
    getColumnType outOfRangeC = ColumnType.derived ∧
    outOfRangeSheet.attributes.length = 3 ∧
    outOfRangeC.formula = some { additionIndices := some [1, 7], subtractionIndices := some [] } ∧
    outOfRangeSheet.attr 7 = none ∧
    calculateDerivedValueForDisplay outOfRangeSheet outOfRangeC 0 = JSVal.num 10 ∧
    (calculateDerivedValueForDisplay outOfRangeSheet outOfRangeC 0).isNumber = true := by
  decide!

/-- C10 (amended): for a derived column with a formula, an addition or subtraction
index that is not a column position of the sheet is skipped: resolving the column
returns a number, the value computed from the indices that are column positions. -/
theorem derived_out_of_range_skipped (sheet : Sheet) (d : Attribute) (f : Formula) (p : Nat)
    (hd : d.derived = true) (hf : d.formula = some f) :
    calculateDerivedValueForDisplay sheet d p =
      JSVal.num
        ((((f.additionIndices.getD []).filter
            (fun i => decide (i < sheet.attributes.length))).map (storedAt sheet p)).sum -
          (((f.subtractionIndices.getD []).filter
            (fun i => decide (i < sheet.attributes.length))).map (storedAt sheet p)).sum) := by
  have hz : ∀ i, decide (i < sheet.attributes.length) = false → storedAt sheet p i = 0 :=
    fun i hi => storedAt_out_of_range sheet p i (of_decide_eq_false hi)
  rw [calculateDerived_eq_stored sheet d f p hd hf,
    sum_map_filter_of_zero (storedAt sheet p) _ _ hz,
    sum_map_filter_of_zero (storedAt sheet p) _ _ hz]

/-- Witness for C10 (amended): `C = add[A, column 7]` is computed from `A` alone. -/
theorem derived_out_of_range_skipped_witness :
    [1, 7].filter (fun i => decide (i < outOfRangeSheet.attributes.length)) = [1] ∧
    calculateDerivedValueForDisplay outOfRangeSheet outOfRangeC 0 =
      JSVal.num
        ((([1, 7].filter
            (fun i => decide (i < outOfRangeSheet.attributes.length))).map
              (storedAt outOfRangeSheet 0)).sum -
          ((([] : List Nat).filter
            (fun i => decide (i < outOfRangeSheet.attributes.length))).map
              (storedAt outOfRangeSheet 0)).sum) :=
  ⟨by decide,
    derived_out_of_range_skipped outOfRangeSheet outOfRangeC
      { additionIndices := some [1, 7], subtractionIndices := some [] } 0 rfl rfl⟩

/-! ## Subrows -/

theorem foldl_add_map_sum {α : Type} (g : α → Rat) (l : List α) (a : Rat) :
    l.foldl (fun t x => t + g x) a = a + (l.map g).sum := by
  induction l generalizing a with
  | nil => simp
  | cons x xs ih => simp [ih, add_assoc]

theorem rows_get (sheet : Sheet) (p : Nat) (hp : p < numRows sheet) :
    (rows sheet).get? p = some (sheet.attributes.map (fun attr => rowCell attr p)) := by
  simp [rows, List.getElem?_range hp]

/-- C11 (as stated, refuted): the subrow-enabled column `Items` has 5 stored for
period 0 and a ledger of two entries whose `qty` sums to 12; the cell shown for the
period, and the column resolved by kind, is the stored 5, not the ledger sum. -/
theorem subrow_cell_counterexample :
    subrowSheet.attr 1 = some subrowItems ∧
    hasSubrows subrowItems = true ∧
    (getSubrowsForRowAndColumn subrowSheetData 0 1).length = 2 ∧
    subrowsTableTotal (getSubrowsForRowAndColumn subrowSheetData 0 1) "qty" = 12 ∧
    rows subrowSheet = [[JSVal.str "1 Jan 2025", JSVal.num 5]] ∧
    resolve subrowSheet subrowItems 1 0 = JSVal.num 5 ∧
    numericValue (rowCell subrowItems 0) ≠
      subrowsTableTotal (getSubrowsForRowAndColumn subrowSheetData 0 1) "qty" := by
  decide!

/-- C11 (amended): for every column `c` of the sheet (subrow-enabled or not) and every
stored period `p`, the cell shown in the table is the scalar stored for it,
`c.data[p] || "0"`, whatever the ledger of the cell holds; it denotes the sum of the
aggregate field over the ledger exactly when the stored scalar denotes that sum. -/
theorem subrow_cell_is_stored_scalar (sheet : Sheet) (sheetData : List RawRow) (c : Attribute)
    (ci p : Nat) (aggregateField : String)
    (hc : sheet.attr ci = some c) (hp : p < numRows sheet) :
    (∃ row, (rows sheet).get? p = some row ∧ row.get? ci = some (rowCell c p)) ∧
    rowCell c p = jsOr (jsIndex c.data p) (JSVal.str "0") ∧
    numericValue (rowCell c p) = parseFloatOr0 (jsIndex c.data p) ∧
    (numericValue (rowCell c p) =
        subrowsTableTotal (getSubrowsForRowAndColumn sheetData p ci) aggregateField ↔
      parseFloatOr0 (jsIndex c.data p) =
        subrowsTableTotal (getSubrowsForRowAndColumn sheetData p ci) aggregateField) := by
  have hnum : numericValue (rowCell c p) = parseFloatOr0 (jsIndex c.data p) :=
    parseFloatOr0_jsOr_zero _
  refine ⟨⟨_, rows_get sheet p hp, ?_⟩, rfl, hnum, by rw [hnum]⟩
  have hc2 : sheet.attributes.get? ci = some c := hc
  simp [List.getElem?_map, List.get?_eq_getElem?] at hc2 ⊢
  exact ⟨c, hc2, rfl⟩

/-- Witness for C11 (amended): the cell of `Items` at period 0 is the stored 5. -/
theorem subrow_cell_is_stored_scalar_witness :
    rowCell subrowItems 0 = JSVal.num 5 ∧
    ((∃ row, (rows subrowSheet).get? 0 = some row ∧ row.get? 1 = some (rowCell subrowItems 0)) ∧
      rowCell subrowItems 0 = jsOr (jsIndex subrowItems.data 0) (JSVal.str "0") ∧
      numericValue (rowCell subrowItems 0) = parseFloatOr0 (jsIndex subrowItems.data 0) ∧
      (numericValue (rowCell subrowItems 0) =
          subrowsTableTotal (getSubrowsForRowAndColumn subrowSheetData 0 1) "qty" ↔
        parseFloatOr0 (jsIndex subrowItems.data 0) =
          subrowsTableTotal (getSubrowsForRowAndColumn subrowSheetData 0 1) "qty")) :=
  ⟨by decide!,
    subrow_cell_is_stored_scalar subrowSheet subrowSheetData subrowItems 1 0 "qty"
      (by decide) (by decide)⟩

/-- C12: for every ledger and aggregate field, the sum of the Total row of the expanded
subrows table is the sum over the ledger entries of `parseFloat(entry[field]) || 0`;
an entry without the field, or with a value that is not numeric, counts as 0; the
empty ledger sums to 0; and the running total of the entry modal is the same number
on every ledger.  (The two places then format the number, with `toFixed(2)` and with
`toString()`.) -/
theorem subrow_total_eq_sum (subrows : List Subrow) (aggregateField : String) :
    subrowsTableTotal subrows aggregateField =
      (subrows.map (fun subrow => parseFloatOr0 (subrow.get aggregateField))).sum ∧
    modalSubrowsTotal subrows aggregateField = subrowsTableTotal subrows aggregateField ∧
    subrowsTableTotal [] aggregateField = 0 ∧
    modalSubrowsTotal [] aggregateField = 0 ∧
    (∀ subrow : Subrow, subrow.fields.lookup aggregateField = none →
      parseFloatOr0 (subrow.get aggregateField) = 0) ∧
    (∀ subrow : Subrow, parseFloat (subrow.get aggregateField) = none →
      parseFloatOr0 (subrow.get aggregateField) = 0) := by
  refine ⟨?_, rfl, rfl, rfl, fun subrow h => ?_, fun subrow h => ?_⟩
  · unfold subrowsTableTotal
    rw [foldl_add_map_sum (fun subrow : Subrow => parseFloatOr0 (subrow.get aggregateField))]
    simp
  · simp [Subrow.get, h, parseFloatOr0_undefined]
  · simp [parseFloatOr0, h]

/-- The ledger of the scenario: entries with `qty` 4, `"8.5"`, a missing `qty` and a
non-numeric `qty` total 12.5 in the table and in the modal. -/
theorem subrow_total_example :
    subrowsTableTotal
      [ { fields := [("qty", JSVal.num 4)] }, { fields := [("qty", JSVal.str "8.5")] },
        { fields := [("item", JSVal.str "nut")] }, { fields := [("qty", JSVal.str "n/a")] } ]
      "qty" = 25 / 2 ∧
    modalSubrowsTotal
      [ { fields := [("qty", JSVal.num 4)] }, { fields := [("qty", JSVal.str "8.5")] },
        { fields := [("item", JSVal.str "nut")] }, { fields := [("qty", JSVal.str "n/a")] } ]
      "qty" = 25 / 2 := by
  decide!

/-! ## Reconciliation: counted values and variances -/

theorem handleInputChange_get (sheets : List ReconSheet) (sheetName : String)
    (field : ReconField) (value : JSVal) (i : Nat) (sheet : ReconSheet)
    (hi : sheets.get? i = some sheet) (hn : sheet.sheetName = sheetName) :
    (handleInputChange sheets sheetName field value).get? i =
      some (match field with
        | ReconField.reconOpeningStock =>
          { sheet with
            reconOpeningStock := value,
            openingDifference := some (parseFloatOr0 value - sheet.openingStockTotal.getD 0) }
        | ReconField.reconClosingStock =>
          { sheet with
            reconClosingStock := value,
            closingDifference := some (parseFloatOr0 value - sheet.closingStockTotal.getD 0) }) := by
  unfold handleInputChange
  simp only [List.get?_eq_getElem?, List.getElem?_map] at hi ⊢
  rw [hi]
  simp [hn]

/-- C13: for every session, sheet name and value denoting the number `v`,
`handleInputChange` on the opening field gives every record of that name the counted
opening value and the opening variance `v - openingStockTotal`, and on the closing
field the counted closing value and the closing variance `v - closingStockTotal`, a
missing total counting as 0. -/
theorem handleInputChange_sets_variance (sheets : List ReconSheet) (sheetName : String)
    (value : JSVal) (v : Rat) (i : Nat) (sheet : ReconSheet)
    (hv : parseFloat value = some v)
    (hi : sheets.get? i = some sheet) (hn : sheet.sheetName = sheetName) :
    (∃ updated,
      (handleInputChange sheets sheetName ReconField.reconOpeningStock value).get? i =
        some updated ∧
      updated.reconOpeningStock = value ∧
      updated.openingDifference = some (v - sheet.openingStockTotal.getD 0)) ∧
    (∃ updated,
      (handleInputChange sheets sheetName ReconField.reconClosingStock value).get? i =
        some updated ∧
      updated.reconClosingStock = value ∧
      updated.closingDifference = some (v - sheet.closingStockTotal.getD 0)) := by
  have hnum : parseFloatOr0 value = v := by simp [parseFloatOr0, hv]
  refine ⟨⟨_, handleInputChange_get sheets sheetName _ value i sheet hi hn, rfl, ?_⟩,
    ⟨_, handleInputChange_get sheets sheetName _ value i sheet hi hn, rfl, ?_⟩⟩
  · simp [hnum]
  · simp [hnum]

/-- Witness for C13: counting 120 for `S1` (opening total 40, closing total 100) in a
fresh session over `S1` and `S2`. -/
theorem handleInputChange_sets_variance_witness :
    parseFloat (JSVal.str "120") = some 120 ∧
    (handleInputChange (initialSheets [stockS1, stockS2]) "S1"
        ReconField.reconClosingStock (JSVal.str "120")).map
          (fun sheet => sheet.closingDifference) = [some 20, some 0] ∧
    ((∃ updated,
      (handleInputChange (initialSheets [stockS1, stockS2]) "S1"
          ReconField.reconOpeningStock (JSVal.str "120")).get? 0 = some updated ∧
      updated.reconOpeningStock = JSVal.str "120" ∧
      updated.openingDifference = some (120 - (some (40 : Rat)).getD 0)) ∧
    (∃ updated,
      (handleInputChange (initialSheets [stockS1, stockS2]) "S1"
          ReconField.reconClosingStock (JSVal.str "120")).get? 0 = some updated ∧
      updated.reconClosingStock = JSVal.str "120" ∧
      updated.closingDifference = some (120 - (some (100 : Rat)).getD 0))) :=
  ⟨by decide!, by decide!,
    handleInputChange_sets_variance (initialSheets [stockS1, stockS2]) "S1" (JSVal.str "120")
      120 0 { toStockSheet := stockS1, reconOpeningStock := JSVal.str "",
              reconClosingStock := JSVal.str "", openingDifference := some 0,
              closingDifference := some 0 }
      (by decide!) (by decide!) (by decide)⟩

/-- C16: for every session, sheet name and input that is not numeric (`parseFloat`
gives `NaN`: blank or unparsable text), `handleInputChange` returns a session in which
every record of that name holds the input as counted value, has the variance
`0 - total` for the edited field, and adds 0 to the aggregate counted sum. -/
theorem handleInputChange_non_numeric (sheets : List ReconSheet) (sheetName : String)
    (value : JSVal) (i : Nat) (sheet : ReconSheet)
    (hv : parseFloat value = none)
    (hi : sheets.get? i = some sheet) (hn : sheet.sheetName = sheetName) :
    (∃ updated,
      (handleInputChange sheets sheetName ReconField.reconOpeningStock value).get? i =
        some updated ∧
      updated.reconOpeningStock = value ∧
      updated.openingDifference = some (0 - sheet.openingStockTotal.getD 0) ∧
      ∀ acc : Totals, (totalsStep acc updated).reconOpening = acc.reconOpening) ∧
    (∃ updated,
      (handleInputChange sheets sheetName ReconField.reconClosingStock value).get? i =
        some updated ∧
      updated.reconClosingStock = value ∧
      updated.closingDifference = some (0 - sheet.closingStockTotal.getD 0) ∧
      ∀ acc : Totals, (totalsStep acc updated).reconClosing = acc.reconClosing) := by
  have hnum : parseFloatOr0 value = 0 := by simp [parseFloatOr0, hv]
  refine ⟨⟨_, handleInputChange_get sheets sheetName _ value i sheet hi hn, rfl, ?_, ?_⟩,
    ⟨_, handleInputChange_get sheets sheetName _ value i sheet hi hn, rfl, ?_, ?_⟩⟩
  · simp [hnum]
  · intro acc; simp [totalsStep, hnum]
  · simp [hnum]
  · intro acc; simp [totalsStep, hnum]

/-- Witness for C16: the unparsable input `"abc"` for `S1` in a fresh session. -/
theorem handleInputChange_non_numeric_witness :
    parseFloat (JSVal.str "abc") = none ∧
    parseFloat (JSVal.str "") = none ∧
    ((∃ updated,
      (handleInputChange (initialSheets [stockS1, stockS2]) "S1"
          ReconField.reconOpeningStock (JSVal.str "abc")).get? 0 = some updated ∧
      updated.reconOpeningStock = JSVal.str "abc" ∧
      updated.openingDifference = some (0 - (some (40 : Rat)).getD 0) ∧
      ∀ acc : Totals, (totalsStep acc updated).reconOpening = acc.reconOpening) ∧
    (∃ updated,
      (handleInputChange (initialSheets [stockS1, stockS2]) "S1"
          ReconField.reconClosingStock (JSVal.str "abc")).get? 0 = some updated ∧
      updated.reconClosingStock = JSVal.str "abc" ∧
      updated.closingDifference = some (0 - (some (100 : Rat)).getD 0) ∧
      ∀ acc : Totals, (totalsStep acc updated).reconClosing = acc.reconClosing)) :=
  ⟨by decide, by decide,
    handleInputChange_non_numeric (initialSheets [stockS1, stockS2]) "S1" (JSVal.str "abc")
      0 { toStockSheet := stockS1, reconOpeningStock := JSVal.str "",
          reconClosingStock := JSVal.str "", openingDifference := some 0,
          closingDifference := some 0 }
      (by decide) (by decide!) (by decide)⟩

/-- C17: for every list of source sheets, the fresh initialisation has one record per
source sheet, in the same order, whose stock-pull fields are those of the source sheet
unchanged, with empty counted opening and closing values (and the variances 0). -/
theorem initialSheets_keeps_source (sheets : List StockSheet) :
    (initialSheets sheets).length = sheets.length ∧
    (initialSheets sheets).map ReconSheet.toStockSheet = sheets ∧
    (∀ i : Nat, ((initialSheets sheets).get? i).map ReconSheet.toStockSheet = sheets.get? i) ∧
    (∀ r ∈ initialSheets sheets,
      r.reconOpeningStock = JSVal.str "" ∧ r.reconClosingStock = JSVal.str "" ∧
      r.openingDifference = some 0 ∧ r.closingDifference = some 0) := by
  have hmap : (initialSheets sheets).map ReconSheet.toStockSheet = sheets := by
    simp [initialSheets, Function.comp_def]
  refine ⟨by simp [initialSheets], hmap, fun i => ?_, fun r hr => ?_⟩
  · simp only [List.get?_eq_getElem?, ← List.getElem?_map, hmap]
  · simp only [initialSheets, List.mem_map] at hr
    obtain ⟨sheet, _, rfl⟩ := hr
    exact ⟨rfl, rfl, rfl, rfl⟩

/-- The fresh session over `S1` and `S2`. -/
theorem initialSheets_example :
    initialSheets [stockS1, stockS2] =
      [ { toStockSheet := stockS1, reconOpeningStock := JSVal.str "",
          reconClosingStock := JSVal.str "", openingDifference := some 0,
          closingDifference := some 0 },
        { toStockSheet := stockS2, reconOpeningStock := JSVal.str "",
          reconClosingStock := JSVal.str "", openingDifference := some 0,
          closingDifference := some 0 } ] := by
  decide!

/-! ## Reconciliation: aggregate totals -/

theorem foldl_totalsStep (l : List ReconSheet) (acc : Totals) :
    l.foldl totalsStep acc =
      { openingStock := acc.openingStock + (l.map (fun s => s.openingStockTotal.getD 0)).sum,
        reconOpening := acc.reconOpening + (l.map (fun s => parseFloatOr0 s.reconOpeningStock)).sum,
        openingDiff := acc.openingDiff + (l.map (fun s => s.openingDifference.getD 0)).sum,
        closingStock := acc.closingStock + (l.map (fun s => s.closingStockTotal.getD 0)).sum,
        reconClosing := acc.reconClosing + (l.map (fun s => parseFloatOr0 s.reconClosingStock)).sum,
        closingDiff := acc.closingDiff + (l.map (fun s => s.closingDifference.getD 0)).sum } := by
  induction l generalizing acc with
  | nil => simp
  | cons x xs ih =>
    rw [List.foldl_cons, ih]
    simp [totalsStep, add_assoc]

theorem totals_eq_sums (l : List ReconSheet) :
    totals l =
      { openingStock := (l.map (fun s => s.openingStockTotal.getD 0)).sum,
        reconOpening := (l.map (fun s => parseFloatOr0 s.reconOpeningStock)).sum,
        openingDiff := (l.map (fun s => s.openingDifference.getD 0)).sum,
        closingStock := (l.map (fun s => s.closingStockTotal.getD 0)).sum,
        reconClosing := (l.map (fun s => parseFloatOr0 s.reconClosingStock)).sum,
        closingDiff := (l.map (fun s => s.closingDifference.getD 0)).sum } := by
  unfold totals
  rw [foldl_totalsStep]
  simp

theorem sortedSheets_perm (engine : ArraySort) (compareFn : ReconSheet → ReconSheet → Int)
    (l : List ReconSheet) :
    (sortedSheets engine compareFn l).Perm l :=
  engine.perm compareFn l

theorem sum_map_sortedSheets (engine : ArraySort) (compareFn : ReconSheet → ReconSheet → Int)
    (l : List ReconSheet) (f : ReconSheet → Rat) :
    ((sortedSheets engine compareFn l).map f).sum = (l.map f).sum :=
  ((sortedSheets_perm engine compareFn l).map f).sum_eq

theorem sum_map_filter_ite (l : List ReconSheet) (keep : ReconSheet → Bool)
    (f : ReconSheet → Rat) :
    ((l.filter keep).map f).sum = (l.map (fun s => if keep s = true then f s else 0)).sum := by
  induction l with
  | nil => rfl
  | cons x xs ih =>
    cases hx : keep x with
    | true => simp [List.filter, hx, ih]
    | false => simp [List.filter, hx, ih]

theorem matchesFilter_iff_inView (lower : String → String) (filter : FilterState)
    (sheet : ReconSheet) :
    matchesFilter lower filter sheet = true ↔ inView lower filter sheet := by
  unfold matchesFilter inView
  by_cases hg : filter.selectedGroup = "all"
  · simp [hg]
  · simp [hg]
    tauto

theorem aggregate_field_in_view (engine : ArraySort) (lower : String → String)
    (compareFn : ReconSheet → ReconSheet → Int)
    (filter : FilterState) (sheets : List ReconSheet) (f : ReconSheet → Rat) :
    ((sortedSheets engine compareFn (filteredSheets lower filter sheets)).map f).sum =
      (sheets.map (fun s => if inView lower filter s then f s else 0)).sum := by
  rw [sum_map_sortedSheets, filteredSheets, sum_map_filter_ite]
  congr 1
  apply List.map_congr_left
  intro s _
  by_cases h : inView lower filter s
  · simp [h, (matchesFilter_iff_inView lower filter s).mpr h]
  · have : matchesFilter lower filter s = false := by
      cases hm : matchesFilter lower filter s with
      | false => rfl
      | true => exact absurd ((matchesFilter_iff_inView lower filter s).mp hm) h
    simp [h, this]

/-- C15: on every platform (whatever its sort `engine` and its method `toLowerCase`,
here `lower`), for every session, filter state and sort callback, each of the six
aggregate sums is the sum, over all records of the session, of the record's
contribution when the record is in view (its lower-cased name contains the lower-cased
search term, its name is in the selected-sheet set and, for a selected group other than
`"all"`, its metadata group is the selected group) and of 0 when it is not. -/
theorem totals_over_sheets_in_view (engine : ArraySort) (lower : String → String)
    (compareFn : ReconSheet → ReconSheet → Int)
    (filter : FilterState) (sheets : List ReconSheet) :
    aggregateVariance engine lower compareFn filter sheets =
      { openingStock :=
          (sheets.map (fun s =>
            if inView lower filter s then s.openingStockTotal.getD 0 else 0)).sum,
        reconOpening :=
          (sheets.map (fun s =>
            if inView lower filter s then parseFloatOr0 s.reconOpeningStock else 0)).sum,
        openingDiff :=
          (sheets.map (fun s =>
            if inView lower filter s then s.openingDifference.getD 0 else 0)).sum,
        closingStock :=
          (sheets.map (fun s =>
            if inView lower filter s then s.closingStockTotal.getD 0 else 0)).sum,
        reconClosing :=
          (sheets.map (fun s =>
            if inView lower filter s then parseFloatOr0 s.reconClosingStock else 0)).sum,
        closingDiff :=
          (sheets.map (fun s =>
            if inView lower filter s then s.closingDifference.getD 0 else 0)).sum } := by
  unfold aggregateVariance
  rw [totals_eq_sums]
  simp only [aggregate_field_in_view]

/-- The sheet `Éclair` and the search term `é`: with a method `toLowerCase` that
lower-cases the letters of Latin-1 the sheet is in view and the opening total is 1;
with one that leaves U+00C9 as it is the sheet is out of view and the total is 0. -/
theorem totals_in_view_accent_example :
    inView lowerLatin1 searchAccent (stockEclair.asRecon) ∧
    (aggregateVariance stableSort lowerLatin1 keepOrder searchAccent
      (initialSheets [stockEclair])).openingStock = 1 ∧
    (aggregateVariance stableSort toLowerCase keepOrder searchAccent
      (initialSheets [stockEclair])).openingStock = 0 := by
  decide!

/-- With the search term `"s2"` only `S2` is in view: the opening total is 7, not 47. -/
theorem totals_in_view_example :
    (aggregateVariance stableSort toLowerCase keepOrder { allInView with searchTerm := "s2" }
      (initialSheets [stockS1, stockS2])).openingStock = 7 ∧
    (aggregateVariance stableSort toLowerCase keepOrder allInView
      (initialSheets [stockS1, stockS2])).openingStock = 47 := by
  decide!

/-! ## Reconciliation: variances of reachable sessions -/

theorem varianceInvariant_initial (source : List StockSheet) :
    ∀ sheet ∈ initialSheets source, VarianceInvariant sheet := by
  intro sheet h
  simp only [initialSheets, List.mem_map] at h
  obtain ⟨src, _, rfl⟩ := h
  simp [VarianceInvariant, closingVarianceOf, openingVarianceOf, closingUntouched,
    openingUntouched]

theorem closingVarianceOf_set (sheet : ReconSheet) (value : JSVal) (d : Rat)
    (hd : d = parseFloatOr0 value - sheet.closingStockTotal.getD 0) :
    closingVarianceOf { sheet with reconClosingStock := value, closingDifference := some d } = d := by
  unfold closingVarianceOf closingUntouched countedMinusTotalClosing
  by_cases h : value = JSVal.str "" ∧ d = 0
  · simp [h.1, h.2]
  · simp only [Option.some.injEq]
    rw [if_neg h, hd]

theorem openingVarianceOf_set (sheet : ReconSheet) (value : JSVal) (d : Rat)
    (hd : d = parseFloatOr0 value - sheet.openingStockTotal.getD 0) :
    openingVarianceOf { sheet with reconOpeningStock := value, openingDifference := some d } = d := by
  unfold openingVarianceOf openingUntouched countedMinusTotalOpening
  by_cases h : value = JSVal.str "" ∧ d = 0
  · simp [h.1, h.2]
  · simp only [Option.some.injEq]
    rw [if_neg h, hd]

theorem varianceInvariant_handleInputChange (session : List ReconSheet) (sheetName : String)
    (field : ReconField) (value : JSVal)
    (h : ∀ sheet ∈ session, VarianceInvariant sheet) :
    ∀ sheet ∈ handleInputChange session sheetName field value, VarianceInvariant sheet := by
  intro sheet hs
  simp only [handleInputChange, List.mem_map] at hs
  obtain ⟨old, hold, rfl⟩ := hs
  have hinv := h old hold
  by_cases hn : old.sheetName = sheetName
  · rw [if_pos hn]
    cases field with
    | reconOpeningStock =>
      refine ⟨hinv.1, ?_⟩
      simp only
      rw [openingVarianceOf_set old value _ rfl]
      rfl
    | reconClosingStock =>
      refine ⟨?_, hinv.2⟩
      simp only
      rw [closingVarianceOf_set old value _ rfl]
      rfl
  · rw [if_neg hn]; exact hinv

theorem varianceInvariant_of_reachable (source : List StockSheet) (session : List ReconSheet)
    (h : Reachable source session) : ∀ sheet ∈ session, VarianceInvariant sheet := by
  induction h with
  | fresh => exact varianceInvariant_initial source
  | input session sheetName field value _ ih =>
    exact varianceInvariant_handleInputChange session sheetName field value ih

/-- C14 (as stated, refuted): in the fresh session over `S1` (closing total 100) and
`S2`, with every sheet in view, the aggregate closing variance is 0, while the sum of
counted closing minus closing total over the sheets in view is `0 - 100`; the opening
side is 0 against `-47`.  The names are ASCII and the sort callback is constant: the
platform lower-cases them as `toLowerCase` does and sorts as `stableSort` does. -/
theorem variance_fresh_counterexample :
    Reachable [stockS1, stockS2] (initialSheets [stockS1, stockS2]) ∧
    filteredSheets toLowerCase allInView (initialSheets [stockS1, stockS2]) =
      initialSheets [stockS1, stockS2] ∧
    (aggregateVariance stableSort toLowerCase keepOrder allInView
      (initialSheets [stockS1, stockS2])).closingDiff = 0 ∧
    ((filteredSheets toLowerCase allInView (initialSheets [stockS1, stockS2])).map
      countedMinusTotalClosing).sum = -100 ∧
    (aggregateVariance stableSort toLowerCase keepOrder allInView
      (initialSheets [stockS1, stockS2])).openingDiff = 0 ∧
    ((filteredSheets toLowerCase allInView (initialSheets [stockS1, stockS2])).map
      countedMinusTotalOpening).sum = -47 ∧
    (aggregateVariance stableSort toLowerCase keepOrder allInView
      (initialSheets [stockS1, stockS2])).closingDiff ≠
      ((filteredSheets toLowerCase allInView (initialSheets [stockS1, stockS2])).map
        countedMinusTotalClosing).sum :=
  ⟨Reachable.fresh, by decide!, by decide!, by decide!, by decide!, by decide!, by decide!⟩

/-- C14 (amended): on every platform (sort `engine`, method `toLowerCase` as `lower`),
for every session reachable from the fresh start by calls of
`handleInputChange`, every filter state and every sort callback, the aggregate closing
variance is the sum, over the sheets passing the filter, of the variance the sheet
shows: counted closing minus closing total once its closing count has been set, and 0
while the count is untouched (blank with the seeded variance 0); likewise for the
opening side.  When no sheet passing the filter is untouched, the sums are the sums of
counted minus total. -/
theorem variance_sum_of_reachable (source : List StockSheet) (session : List ReconSheet)
    (engine : ArraySort) (lower : String → String)
    (compareFn : ReconSheet → ReconSheet → Int) (filter : FilterState)
    (h : Reachable source session) :
    (aggregateVariance engine lower compareFn filter session).closingDiff =
        ((filteredSheets lower filter session).map closingVarianceOf).sum ∧
    (aggregateVariance engine lower compareFn filter session).openingDiff =
        ((filteredSheets lower filter session).map openingVarianceOf).sum ∧
    ((∀ sheet ∈ filteredSheets lower filter session, ¬ closingUntouched sheet) →
      (aggregateVariance engine lower compareFn filter session).closingDiff =
        ((filteredSheets lower filter session).map countedMinusTotalClosing).sum) ∧
    ((∀ sheet ∈ filteredSheets lower filter session, ¬ openingUntouched sheet) →
      (aggregateVariance engine lower compareFn filter session).openingDiff =
        ((filteredSheets lower filter session).map countedMinusTotalOpening).sum) := by
  have hinv := varianceInvariant_of_reachable source session h
  have hmem : ∀ sheet ∈ filteredSheets lower filter session, sheet ∈ session :=
    fun sheet hs => (List.mem_filter.mp hs).1
  have hc : (aggregateVariance engine lower compareFn filter session).closingDiff =
      ((filteredSheets lower filter session).map closingVarianceOf).sum := by
    unfold aggregateVariance
    rw [totals_eq_sums]
    simp only
    rw [sum_map_sortedSheets]
    exact congrArg List.sum
      (List.map_congr_left (fun sheet hs => (hinv sheet (hmem sheet hs)).1))
  have ho : (aggregateVariance engine lower compareFn filter session).openingDiff =
      ((filteredSheets lower filter session).map openingVarianceOf).sum := by
    unfold aggregateVariance
    rw [totals_eq_sums]
    simp only
    rw [sum_map_sortedSheets]
    exact congrArg List.sum
      (List.map_congr_left (fun sheet hs => (hinv sheet (hmem sheet hs)).2))
  refine ⟨hc, ho, fun hall => ?_, fun hall => ?_⟩
  · rw [hc]
    exact congrArg List.sum
      (List.map_congr_left (fun sheet hs => by simp [closingVarianceOf, hall sheet hs]))
  · rw [ho]
    exact congrArg List.sum
      (List.map_congr_left (fun sheet hs => by simp [openingVarianceOf, hall sheet hs]))

/-- Witness for C14 (amended): after counting 120 for the closing stock of `S1`, the
aggregate closing variance is 20, the variance of `S1`, `S2` being untouched. -/
theorem variance_sum_of_reachable_witness :
    (aggregateVariance stableSort toLowerCase keepOrder allInView
      (handleInputChange (initialSheets [stockS1, stockS2]) "S1"
        ReconField.reconClosingStock (JSVal.str "120"))).closingDiff = 20 ∧
    ((aggregateVariance stableSort toLowerCase keepOrder allInView
        (handleInputChange (initialSheets [stockS1, stockS2]) "S1"
          ReconField.reconClosingStock (JSVal.str "120"))).closingDiff =
      ((filteredSheets toLowerCase allInView
        (handleInputChange (initialSheets [stockS1, stockS2]) "S1"
          ReconField.reconClosingStock (JSVal.str "120"))).map closingVarianceOf).sum) :=
  ⟨by decide!,
    (variance_sum_of_reachable [stockS1, stockS2]
      (handleInputChange (initialSheets [stockS1, stockS2]) "S1"
        ReconField.reconClosingStock (JSVal.str "120"))
      stableSort toLowerCase keepOrder allInView
      (Reachable.input _ "S1" ReconField.reconClosingStock (JSVal.str "120")
        Reachable.fresh)).1⟩

/-! ## Persisted reconciliation state -/

/-- C18 (as stated, refuted): the session is empty and the store holds the progress of
an earlier reconciliation over `S2`; the auto-save writes nothing for an empty session,
and restoring gives the earlier session, not the empty one. -/
theorem autosave_empty_session_counterexample :
    autoSave staleStorage [] (some { sheets := [] }) = staleStorage ∧
    continueReconciliation { sheets := [] } (autoSave staleStorage [] (some { sheets := [] })) =
      Except.ok (initialSheets [stockS2]) ∧
    continueReconciliation { sheets := [] } (autoSave staleStorage [] (some { sheets := [] })) ≠
      Except.ok [] := by
  decide!

/-- C18 (amended): for every session `s`, every store and every source snapshot,
restoring from the store written by `handleSaveAndExit` gives `s` itself, the empty
session included: the same records in the same order with their counted values,
variances and totals as saved.  The auto-save writes a session that is not empty, and
restoring then gives `s` as well; for the empty session it leaves the store as it was. -/
theorem restore_after_persist (storage : LocalStorage) (data : ReconciliationData)
    (saved : Option ReconciliationData) (s : List ReconSheet) :
    continueReconciliation data (handleSaveAndExit storage s) = Except.ok s ∧
    (s ≠ [] → continueReconciliation data (autoSave storage s saved) = Except.ok s) ∧
    (s = [] → autoSave storage s saved = storage) := by
  refine ⟨rfl, fun hs => ?_, fun hs => ?_⟩
  · have hlen : s.length > 0 := List.length_pos.mpr hs
    simp [autoSave, hlen, continueReconciliation, jsonParseItem]
  · simp [autoSave, hs]

/-- Saving and restoring the session in which 120 was counted for `S1`, and the empty
session. -/
theorem restore_after_persist_example :
    continueReconciliation { sheets := [stockS1, stockS2] }
        (handleSaveAndExit {}
          (handleInputChange (initialSheets [stockS1, stockS2]) "S1"
            ReconField.reconClosingStock (JSVal.str "120"))) =
      Except.ok (handleInputChange (initialSheets [stockS1, stockS2]) "S1"
        ReconField.reconClosingStock (JSVal.str "120")) ∧
    continueReconciliation { sheets := [stockS1] } (handleSaveAndExit staleStorage []) =
      Except.ok [] := by
  decide!

/-- C19 (the code at the failing input): with a progress text that is not JSON, the
`continue` initialisation ends in the `SyntaxError` of `JSON.parse`: no session is
produced, neither the empty one nor the source snapshot; a malformed
`reconciliationData` text stops `handleContinueReconciliation` the same way. -/
theorem restore_malformed_throws :
    malformedStorage.reconciliationProgress = some (StoredText.malformed "[sheetName: S1") ∧
    continueReconciliation { sheets := [stockS1] } malformedStorage =
      Except.error (JsError.syntaxError "[sheetName: S1") ∧
    continueReconciliation { sheets := [stockS1] } malformedStorage ≠ Except.ok [] ∧
    handleContinueReconciliation { reconciliationData := some (StoredText.malformed "sheets: none") } =
      Except.error (JsError.syntaxError "sheets: none") := by
  decide!

/-- C20 (as stated, refuted): with no progress in the store and the source snapshot
`[S1]`, the `continue` initialisation gives the session `[S1]`, not the empty one. -/
theorem restore_missing_counterexample :
    ({} : LocalStorage).reconciliationProgress = none ∧
    continueReconciliation { sheets := [stockS1] } {} = Except.ok [stockS1.asRecon] ∧
    continueReconciliation { sheets := [stockS1] } {} ≠ Except.ok [] := by
  decide!

/-- C20 (amended): when no in-progress reconciliation is present in the store, the
`continue` initialisation does not fail and gives the sheets of the source snapshot
as they are (`data.sheets`, without counted values or variances); the session is empty
exactly when the snapshot has no sheets. -/
theorem restore_missing_is_snapshot (data : ReconciliationData) (storage : LocalStorage)
    (hmissing : storage.reconciliationProgress = none) :
    continueReconciliation data storage = Except.ok (data.sheets.map StockSheet.asRecon) ∧
    (∀ r ∈ data.sheets.map StockSheet.asRecon,
      r.reconOpeningStock = JSVal.undefined ∧ r.reconClosingStock = JSVal.undefined ∧
      r.openingDifference = none ∧ r.closingDifference = none) ∧
    (continueReconciliation data storage = Except.ok [] ↔ data.sheets = []) := by
  have h : continueReconciliation data storage =
      Except.ok (data.sheets.map StockSheet.asRecon) := by
    simp [continueReconciliation, jsonParseItem, hmissing]
  refine ⟨h, fun r hr => ?_, ?_⟩
  · simp only [List.mem_map] at hr
    obtain ⟨sheet, _, rfl⟩ := hr
    exact ⟨rfl, rfl, rfl, rfl⟩
  · rw [h]
    constructor
    · intro he
      have := Except.ok.inj he
      simpa using this
    · intro he
      simp [he]

/-- Witness for C20 (amended): an empty store and the source snapshot `[S1, S2]`. -/
theorem restore_missing_is_snapshot_witness :
    continueReconciliation { sheets := [stockS1, stockS2] } {} =
        Except.ok ([stockS1, stockS2].map StockSheet.asRecon) ∧
    (∀ r ∈ [stockS1, stockS2].map StockSheet.asRecon,
      r.reconOpeningStock = JSVal.undefined ∧ r.reconClosingStock = JSVal.undefined ∧
      r.openingDifference = none ∧ r.closingDifference = none) ∧
    (continueReconciliation { sheets := [stockS1, stockS2] } {} = Except.ok [] ↔
      [stockS1, stockS2] = []) :=
  restore_missing_is_snapshot { sheets := [stockS1, stockS2] } {} rfl

/-! ## Totality of the resolution -/

theorem totalsEntry_shape (sheet : Sheet) (attr : Attribute) (cellIndex : Nat) :
    totalsEntry sheet attr cellIndex = JSVal.str "Total" ∨
      (totalsEntry sheet attr cellIndex).isNumber = true := by
  unfold totalsEntry
  by_cases h : toLowerCase attr.name = "date"
  · left; simp [h]
  · right
    rw [if_neg h]
    cases getColumnType attr <;> rfl

/-- C26: `calculateDerivedValueForDisplay` is defined, without recursion into the
referenced columns, for every sheet, column and period: for a derived column with a
formula (self-referential, cyclic or with indices outside the sheet included) it
returns a number, otherwise the stored cell; and the totals row has one entry per
column, each the label `"Total"` or a number. -/
theorem derived_resolution_total (sheet : Sheet) (d : Attribute) (p : Nat) :
    (∃ v, calculateDerivedValueForDisplay sheet d p = v) ∧
    ((d.derived = true ∧ d.formula.isSome = true) →
      ∃ r : Rat, calculateDerivedValueForDisplay sheet d p = JSVal.num r) ∧
    (¬ (d.derived = true ∧ d.formula.isSome = true) →
      calculateDerivedValueForDisplay sheet d p = rowCell d p) ∧
    (totalsRow sheet).length = sheet.attributes.length ∧
    (∀ v ∈ totalsRow sheet, v = JSVal.str "Total" ∨ v.isNumber = true) := by
  refine ⟨⟨_, rfl⟩, fun h => ?_, fun h => ?_, by simp [totalsRow], fun v hv => ?_⟩
  · obtain ⟨hd, hf⟩ := h
    obtain ⟨f, hf⟩ := Option.isSome_iff_exists.mp hf
    exact ⟨_, calculateDerived_eq_stored sheet d f p hd hf⟩
  · unfold calculateDerivedValueForDisplay rowCell
    cases hd : d.derived <;> cases hf : d.formula <;> simp_all
  · simp only [totalsRow, List.mem_map] at hv
    obtain ⟨q, _, rfl⟩ := hv
    exact totalsEntry_shape sheet q.2 q.1

/-- The self-referential, the cyclic and the out-of-range formula are resolved, and
their totals rows are computed. -/
theorem derived_resolution_examples :
    getColumnType selfRefX = ColumnType.derived ∧
    selfRefSheet.attr 1 = some selfRefX ∧
    calculateDerivedValueForDisplay selfRefSheet selfRefX 0 = JSVal.num 4 ∧
    totalsRow selfRefSheet = [JSVal.str "Total", JSVal.num 4] ∧
    totalsRow cyclicSheet = [JSVal.str "Total", JSVal.num 6, JSVal.num 4] ∧
    totalsRow outOfRangeSheet = [JSVal.str "Total", JSVal.num 13, JSVal.num 13] := by
  decide!

/-! ## Reconciliation: the frame of `handleInputChange` -/

/-- C29: for every session, sheet name, field and value, `handleInputChange` returns a
list of the same length in which the record at each position is the old record when
its name differs, and otherwise differs from the old record at most in the edited
counted field and the variance of the same side: the stock-pull fields (name, totals,
counts) and the counted value and variance of the other side are unchanged. -/
theorem handleInputChange_frame (sheets : List ReconSheet) (sheetName : String)
    (field : ReconField) (value : JSVal) :
    (handleInputChange sheets sheetName field value).length = sheets.length ∧
    (∀ (i : Nat) (sheet : ReconSheet), sheets.get? i = some sheet →
      ∃ updated, (handleInputChange sheets sheetName field value).get? i = some updated ∧
        (sheet.sheetName ≠ sheetName → updated = sheet) ∧
        updated.toStockSheet = sheet.toStockSheet ∧
        (field = ReconField.reconOpeningStock →
          updated.reconClosingStock = sheet.reconClosingStock ∧
          updated.closingDifference = sheet.closingDifference) ∧
        (field = ReconField.reconClosingStock →
          updated.reconOpeningStock = sheet.reconOpeningStock ∧
          updated.openingDifference = sheet.openingDifference)) := by
  refine ⟨by simp [handleInputChange], fun i sheet hi => ?_⟩
  by_cases hn : sheet.sheetName = sheetName
  · refine ⟨_, handleInputChange_get sheets sheetName field value i sheet hi hn,
      fun h => absurd hn h, ?_, ?_, ?_⟩
    · cases field <;> rfl
    · intro hf; subst hf; exact ⟨rfl, rfl⟩
    · intro hf; subst hf; exact ⟨rfl, rfl⟩
  · refine ⟨sheet, ?_, fun _ => rfl, rfl, fun _ => ⟨rfl, rfl⟩, fun _ => ⟨rfl, rfl⟩⟩
    unfold handleInputChange
    simp only [List.get?_eq_getElem?, List.getElem?_map] at hi ⊢
    rw [hi]
    simp [hn]

/-- Counting 120 for the closing stock of `S1` changes two fields of `S1` only. -/
theorem handleInputChange_frame_example :
    handleInputChange (initialSheets [stockS1, stockS2]) "S1"
        ReconField.reconClosingStock (JSVal.str "120") =
      [ { toStockSheet := stockS1, reconOpeningStock := JSVal.str "",
          reconClosingStock := JSVal.str "120", openingDifference := some 0,
          closingDifference := some 20 },
        { toStockSheet := stockS2, reconOpeningStock := JSVal.str "",
          reconClosingStock := JSVal.str "", openingDifference := some 0,
          closingDifference := some 0 } ] := by
  decide!

/-! ## Reconciliation export -/

theorem parseFloatOr0_jsOr_num_zero (v : JSVal) :
    parseFloatOr0 (jsOr v (JSVal.num 0)) = parseFloatOr0 v := by
  cases v with
  | undefined => simp [jsOr, JSVal.truthy, parseFloatOr0_num, parseFloatOr0_undefined]
  | null => simp [jsOr, JSVal.truthy, parseFloatOr0_num]; rfl
  | bool b =>
    cases b
    · simp [jsOr, JSVal.truthy, parseFloatOr0_num]; rfl
    · simp [jsOr, JSVal.truthy]
  | num r =>
    by_cases h : r = 0
    · subst h; simp [jsOr, JSVal.truthy]
    · simp [jsOr, JSVal.truthy, h]
  | str t =>
    by_cases h : t = ""
    · subst h; simp [jsOr, JSVal.truthy, parseFloatOr0_num, parseFloatOr0_str_empty]
    · simp [jsOr, JSVal.truthy, h]

theorem filter_eq_self_of_all (l : List ReconSheet) (keep : ReconSheet → Bool)
    (h : ∀ x ∈ l, keep x = true) : l.filter keep = l :=
  List.filter_eq_self.mpr h

/-- C21 (as stated, refuted): in the fresh session over `S1` and `S2` with the search
term `s2`, only `S2` is in view and the displayed opening total is 7, but the export
writes a row for `S1` and a row for `S2`, whose opening stock column sums to 47.  The
names are ASCII and the sort callback is constant: the platform lower-cases them as
`toLowerCase` does and sorts as `stableSort` does. -/
theorem export_ignores_filter_counterexample :
    (filteredSheets toLowerCase searchS2 (initialSheets [stockS1, stockS2])).map
      (fun sheet => sheet.sheetName) = ["S2"] ∧
    (exportDataRows (initialSheets [stockS1, stockS2])).map (fun row => jsIndex row 0) =
      [JSVal.str "S1", JSVal.str "S2"] ∧
    exportDataRows (initialSheets [stockS1, stockS2]) ≠
      (filteredSheets toLowerCase searchS2 (initialSheets [stockS1, stockS2])).map exportRow ∧
    (aggregateVariance stableSort toLowerCase keepOrder searchS2
      (initialSheets [stockS1, stockS2])).openingStock = 7 ∧
    exportColumnSum (initialSheets [stockS1, stockS2]) 1 = 47 := by
  decide!

/-- C21 (amended): for every session, the rows written by the reconciliation export
below the header are one row per record of the whole session, in session order,
whatever the filter state; they are the rows of the sheets in view whenever every
record passes the filter (whatever the method `toLowerCase` of the platform, `lower`),
and the exported figures sum to the aggregate totals of the whole session. -/
theorem export_rows_are_session (sheets : List ReconSheet) :
    exportDataRows sheets = sheets.map exportRow ∧
    (exportDataRows sheets).length = sheets.length ∧
    (exportDataRows sheets).map (fun row => jsIndex row 0) =
      sheets.map (fun sheet => JSVal.str sheet.sheetName) ∧
    (∀ (lower : String → String) (filter : FilterState),
      (∀ sheet ∈ sheets, matchesFilter lower filter sheet = true) →
      exportDataRows sheets = (filteredSheets lower filter sheets).map exportRow) ∧
    totals sheets =
      { openingStock := exportColumnSum sheets 1,
        reconOpening := exportColumnSum sheets 2,
        openingDiff := exportColumnSum sheets 3,
        closingStock := exportColumnSum sheets 4,
        reconClosing := exportColumnSum sheets 5,
        closingDiff := exportColumnSum sheets 6 } := by
  have hrows : exportDataRows sheets = sheets.map exportRow := rfl
  refine ⟨hrows, by simp [hrows], ?_, fun lower filter hall => ?_, ?_⟩
  · rw [hrows, List.map_map]
    exact List.map_congr_left (fun sheet _ => rfl)
  · rw [hrows, filteredSheets, filter_eq_self_of_all sheets _ hall]
  · rw [totals_eq_sums]
    simp only [exportColumnSum, hrows, List.map_map]
    congr 1
    · exact congrArg List.sum (List.map_congr_left (fun sheet _ =>
        (parseFloatOr0_jsOr_num_zero sheet.reconOpeningStock).symm))
    · exact congrArg List.sum (List.map_congr_left (fun sheet _ =>
        (parseFloatOr0_jsOr_num_zero sheet.reconClosingStock).symm))

/-! ## Streamed bulk fetch -/

theorem processLine_sheets (jsonParse : String → Option StreamEvent) (state : FetchState)
    (line : String) :
    (processLine jsonParse state line).sheets =
      state.sheets ++ (sheetPayload jsonParse line).toList := by
  unfold processLine sheetPayload
  by_cases hp : hasDataPrefix line = true
  · simp only [hp, if_true]
    cases h : jsonParse (slice6 line) with
    | none => simp
    | some event => cases event <;> simp
  · simp [hp]

theorem processLine_of_not_parsable (jsonParse : String → Option StreamEvent)
    (state : FetchState) (line : String) (h : isParsableLine jsonParse line = false) :
    processLine jsonParse state line = state := by
  unfold processLine
  by_cases hp : hasDataPrefix line = true
  · simp only [hp, if_true]
    have hnone : jsonParse (slice6 line) = none := by
      simpa [isParsableLine, hp] using h
    simp [hnone]
  · simp [hp]

theorem processLines_sheets (jsonParse : String → Option StreamEvent) (lines : List String)
    (state : FetchState) :
    (processLines jsonParse state lines).sheets =
      state.sheets ++ lines.filterMap (sheetPayload jsonParse) := by
  induction lines generalizing state with
  | nil => simp [processLines]
  | cons line rest ih =>
    have hstep : processLines jsonParse state (line :: rest) =
        processLines jsonParse (processLine jsonParse state line) rest := rfl
    rw [hstep, ih, processLine_sheets]
    cases h : sheetPayload jsonParse line <;> simp [List.filterMap_cons, h]

theorem processLines_filter (jsonParse : String → Option StreamEvent) (lines : List String)
    (state : FetchState) :
    processLines jsonParse state (lines.filter (isParsableLine jsonParse)) =
      processLines jsonParse state lines := by
  induction lines generalizing state with
  | nil => rfl
  | cons line rest ih =>
    cases h : isParsableLine jsonParse line with
    | true =>
      rw [List.filter_cons_of_pos h]
      exact ih (processLine jsonParse state line)
    | false =>
      rw [List.filter_cons_of_neg (by simp [h])]
      have hstep : processLines jsonParse state (line :: rest) =
          processLines jsonParse (processLine jsonParse state line) rest := rfl
      rw [hstep, processLine_of_not_parsable jsonParse state line h]
      exact ih state

/-- C22: for every sequence of stream lines (and every prior state), the consumer goes
through all of them: the sheet list it accumulates is the prior list followed by the
`data` payloads of the parsable lines with the prefix `data: ` whose type is `sheet`,
in arrival order, and the whole resulting state is the one obtained from the input with
every unparsable line and every line without the prefix removed; so it is for the
lines of a chunk. -/
theorem stream_skips_unparsable_lines (jsonParse : String → Option StreamEvent)
    (state : FetchState) (lines : List String) :
    (processLines jsonParse state lines).sheets =
      state.sheets ++ lines.filterMap (sheetPayload jsonParse) ∧
    processLines jsonParse state lines =
      processLines jsonParse state (lines.filter (isParsableLine jsonParse)) ∧
    (∀ chunk : String,
      (processChunk jsonParse state chunk).sheets =
        state.sheets ++ (splitLines chunk).filterMap (sheetPayload jsonParse)) :=
  ⟨processLines_sheets jsonParse lines state, (processLines_filter jsonParse lines state).symm,
    fun chunk => processLines_sheets jsonParse (splitLines chunk) state⟩

/-- A chunk with an unparsable line, a line without the prefix and a sheet line: the
sheet is ingested. -/
theorem stream_skips_unparsable_lines_example :
    splitLines ("data: oops\nnoise\n" ++ sheetLineText) =
      ["data: oops", "noise", "data: " ++ sheetPayloadText, ""] ∧
    (handleFetchData scenarioJsonParse ["data: oops\nnoise\n" ++ sheetLineText]).sheets =
      [{ sheetName := "S1" }] := by
  decide!

/-- C27 (the code at the failing input): the stream text is one sheet line. Delivered
as one chunk it is ingested; delivered as two chunks cut inside the line (after 20
characters) the first piece has the prefix but is not JSON and the second piece has no
prefix, so both are skipped and the sheet list stays empty. -/
theorem stream_depends_on_chunking :
    String.mk (sheetLineText.data.take 20) ++ String.mk (sheetLineText.data.drop 20) =
      sheetLineText ∧
    (handleFetchData scenarioJsonParse [sheetLineText]).sheets = [{ sheetName := "S1" }] ∧
    splitLines (String.mk (sheetLineText.data.take 20)) = ["data: \x7b\"type\":\"sheet"] ∧
    hasDataPrefix (String.mk (sheetLineText.data.drop 20)) = false ∧
    (handleFetchData scenarioJsonParse
      [String.mk (sheetLineText.data.take 20), String.mk (sheetLineText.data.drop 20)]).sheets
      = [] := by
  decide!

/-! ## Name validation -/

theorem someDuplicate_service_shape (lower : String → String) (normalizedName : String)
    (sheet : SheetMetadata) (rest : List SheetMetadata) (h : sheet.name = none) :
    someDuplicate lower normalizedName (sheet :: rest) =
      Except.error (JsError.typeError "sheet.name is undefined") := by
  simp [someDuplicate, h]

theorem validateSheetName_missing_name (lower : String → String) (sheet : SheetMetadata)
    (rest : List SheetMetadata) (name : String) (hs : sheet.name = none)
    (hn : trim name ≠ "") :
    validateSheetName lower (sheet :: rest) name =
      Except.error (JsError.typeError "sheet.name is undefined") := by
  unfold validateSheetName
  rw [if_neg hn]
  simp only
  rw [someDuplicate_service_shape lower _ sheet rest hs]

/-- C23 (the code at the failing input): the existing sheets are given in the shape of
the service, with `sheetName` and without `name`.  Whatever the method `toLowerCase` of
the platform (`lower`), for the candidate `stock`, equal to the existing `Stock`
ignoring case, and for the unused candidate `New`, the validation neither rejects nor
accepts: the read of `sheet.name.toLowerCase()` throws a `TypeError`; so it does for
every non-blank candidate and every list that starts with a record of that shape.  Only
a blank candidate is rejected and only the empty list lets a candidate through. -/
theorem validateSheetName_service_shape_throws (lower : String → String) :
    validateSheetName lower [{ id := "1", sheetName := "Stock" }] "stock" =
      Except.error (JsError.typeError "sheet.name is undefined") ∧
    validateSheetName lower [{ id := "1", sheetName := "Stock" }] "New" =
      Except.error (JsError.typeError "sheet.name is undefined") ∧
    validateSheetName lower [{ id := "1", sheetName := "Stock" }] "  " =
      Except.ok { valid := false, sheetNameError := "Sheet name is required" } ∧
    validateSheetName lower [] "stock" = Except.ok { valid := true, sheetNameError := "" } ∧
    (∀ (sheet : SheetMetadata) (rest : List SheetMetadata) (name : String),
      sheet.name = none → trim name ≠ "" →
      validateSheetName lower (sheet :: rest) name =
        Except.error (JsError.typeError "sheet.name is undefined")) := by
  refine ⟨validateSheetName_missing_name lower _ _ _ rfl (by decide),
    validateSheetName_missing_name lower _ _ _ rfl (by decide), ?_, ?_,
    fun sheet rest name hs hn => validateSheetName_missing_name lower sheet rest name hs hn⟩
  · unfold validateSheetName
    rw [if_pos (by decide)]
  · unfold validateSheetName
    rw [if_neg (by decide)]
    rfl

/-- C24 (the code at the failing input): a group name of 50 letters is accepted (no
name error), although the message of the length rule is "must be less than 50
characters"; the rule rejects from 51 characters on. -/
theorem validateGroupName_accepts_fifty :
    jsLength fiftyLetters = 50 ∧
    (validateGroupName [] ["id1"] fiftyLetters).name = none ∧
    validateGroupName [] ["id1"] fiftyLetters = {} ∧
    (validateGroupName [] ["id1"] fiftyOneLetters).name =
      some "Group name must be less than 50 characters" := by
  decide

/-- What `validateGroupName` guarantees for an accepted name: it is not blank, has
at least 2 and at most 50 code units, holds none of the characters of the class, and
its trimmed form is not an existing group name. -/
theorem validateGroupName_accepted (existingGroups selected : List String) (name : String)
    (h : (validateGroupName existingGroups selected name).name = none) :
    trim name ≠ "" ∧ 2 ≤ jsLength name ∧ jsLength name ≤ 50 ∧ hasInvalidChar name = false ∧
      trim name ∉ existingGroups := by
  unfold validateGroupName at h
  simp only at h
  split_ifs at h with h1 h2 h3 h4 h5
  refine ⟨h1, by omega, by omega, by simpa using h4, ?_⟩
  simpa using h5

/-- The messages of `validateGroupName` for a short name, a name with a character of
the class and an existing name. -/
theorem validateGroupName_messages :
    (validateGroupName [] ["id1"] "a").name =
      some "Group name must be at least 2 characters" ∧
    (validateGroupName [] ["id1"] "a@b").name =
      some "Group name contains invalid characters" ∧
    (validateGroupName ["Raw"] ["id1"] "Raw ").name = some "Group name already exists" ∧
    (validateGroupName [] [] "Raw").sheets = some "At least one sheet must be selected" := by
  decide

/-! ## The new-period preview of a recurrent column -/

/-- C28 (the code at the failing input): `R` is recurrent on `A`, whose two stored
values are 10 and `null`.  The resolver gives `R` the value `"0"` for the next period
(row index 2), but the preview calls `toString` on the `null` and throws a
`TypeError`.  With `A = [10, 3]` both give 3. -/
theorem recurrent_preview_null_throws :
    nullLastSheet.attr 1 = some { name := "A", data := [JSVal.num 10, JSVal.null] } ∧
    getColumnType recurrentR = ColumnType.recurrent ∧
    calculateRecurrentValue nullLastSheet recurrentR 2 2 = JSVal.str "0" ∧
    getRecurrentValueForDisplay nullLastSheet recurrentR =
      Except.error (JsError.typeError "null has no toString") ∧
    getRecurrentValueForDisplay recurrentSheet recurrentR = Except.ok (JSVal.num 3) ∧
    calculateRecurrentValue recurrentSheet recurrentR 2 2 = JSVal.num 3 := by
  decide!

theorem numericValue_jsToString (v w : JSVal) (h : jsToString v = Except.ok w) :
    numericValue w = numericValue (jsOr v (JSVal.str "0")) := by
  cases v with
  | undefined => simp [jsToString] at h
  | null => simp [jsToString] at h
  | bool b =>
    cases b <;> simp [jsToString] at h <;> subst h <;> decide!
  | num r =>
    simp only [jsToString, Except.ok.injEq] at h
    subst h
    exact (parseFloatOr0_jsOr_zero _).symm
  | str t =>
    simp only [jsToString, Except.ok.injEq] at h
    subst h
    exact (parseFloatOr0_jsOr_zero _).symm

/-- Where the preview agrees with the resolver: for a recurrent column whose reference
column exists and whose last stored value is not `null`, the preview returns a value
that denotes the same number as `calculateRecurrentValue` at the row index `n`, the
number of stored periods of the reference column. -/
theorem recurrent_preview_agrees (sheet : Sheet) (r : Attribute) (rc : RecurrentCheck)
    (refIdx : Nat) (x : Attribute) (ci : Nat)
    (hr : r.recurrentCheck = some rc) (hrec : rc.isRecurrent = true)
    (hidx : rc.recurrentReferenceIndice = some refIdx) (hx : sheet.attr refIdx = some x)
    (hnull : jsIndex x.data (x.data.length - 1) ≠ JSVal.null) :
    ∃ v, getRecurrentValueForDisplay sheet r = Except.ok v ∧
      numericValue v = numericValue (calculateRecurrentValue sheet r ci x.data.length) := by
  have hisrec : r.isRecurrent = true := by simp [Attribute.isRecurrent, hr, hrec]
  cases hlen : x.data.length with
  | zero =>
    refine ⟨JSVal.str "0", ?_, ?_⟩
    · simp [getRecurrentValueForDisplay, hisrec, hr, hidx, hx, hlen]
    · simp [calculateRecurrentValue, hisrec, hr, hidx, hx]
  | succ n =>
    have hcalc : calculateRecurrentValue sheet r ci (n + 1) =
        jsOr (jsIndex x.data n) (JSVal.str "0") := by
      rw [calculateRecurrent_succ sheet r rc refIdx x ci n hr hrec hidx hx]; rfl
    have hlast : x.data.length - 1 = n := by omega
    rw [hlast] at hnull
    by_cases hgo : jsIndex x.data n ≠ JSVal.undefined ∧ jsIndex x.data n ≠ JSVal.str ""
    · cases hts : jsToString (jsIndex x.data n) with
      | error e =>
        exfalso
        cases hv : jsIndex x.data n with
        | undefined => exact hgo.1 hv
        | null => exact hnull hv
        | bool b => simp [hv, jsToString] at hts
        | num q => simp [hv, jsToString] at hts
        | str t => simp [hv, jsToString] at hts
      | ok w =>
        refine ⟨w, ?_, ?_⟩
        · simp [getRecurrentValueForDisplay, hisrec, hr, hidx, hx, hlen, hgo, hts]
        · rw [hcalc]; exact numericValue_jsToString _ w hts
    · have hcase : jsIndex x.data n = JSVal.undefined ∨ jsIndex x.data n = JSVal.str "" := by
        by_contra hc
        push_neg at hc
        exact hgo hc
      refine ⟨JSVal.str "0", ?_, ?_⟩
      · rcases hcase with hc | hc <;>
          simp [getRecurrentValueForDisplay, hisrec, hr, hidx, hx, hlen, hc]
      · rw [hcalc]
        rcases hcase with hc | hc <;> rw [hc] <;> decide!

/-! ## Excel export of a sheet -/

theorem classify_foldl (entries : List (Nat × Attribute)) (acc : AttrClasses) :
    entries.foldl classifyStep acc =
      { visibleAttrs := acc.visibleAttrs ++
          (entries.filter (fun entry => decide (attrClassOf entry.2 = AttrClass.visible))).map
            (fun entry => { attr := entry.2, index := entry.1 }),
        hiddenAttrs := acc.hiddenAttrs ++
          (entries.filter (fun entry => decide (attrClassOf entry.2 = AttrClass.hidden))).map
            (fun entry => { attr := entry.2, index := entry.1 }),
        deletedAttrs := acc.deletedAttrs ++
          (entries.filter (fun entry => decide (attrClassOf entry.2 = AttrClass.deleted))).map
            (fun entry => { attr := entry.2, index := entry.1 }) } := by
  induction entries generalizing acc with
  | nil => simp
  | cons entry rest ih =>
    rw [List.foldl_cons, ih]
    unfold classifyStep attrClassOf
    cases hd : entry.2.isDeleted <;> cases hh : entry.2.isHidden <;>
      simp [List.filter_cons, hd, hh]

theorem orderedAttrs_eq (attributes : List Attribute) :
    orderedAttrs attributes =
      itemsOfClass attributes AttrClass.visible ++ itemsOfClass attributes AttrClass.hidden ++
        [separatorItem] ++ itemsOfClass attributes AttrClass.deleted := by
  unfold orderedAttrs classify itemsOfClass
  rw [classify_foldl]
  simp

theorem three_way_perm (entries : List (Nat × Attribute)) :
    (entries.filter (fun entry => decide (attrClassOf entry.2 = AttrClass.visible)) ++
      entries.filter (fun entry => decide (attrClassOf entry.2 = AttrClass.hidden)) ++
      entries.filter (fun entry => decide (attrClassOf entry.2 = AttrClass.deleted))).Perm
      entries := by
  induction entries with
  | nil => simp
  | cons entry rest ih =>
    cases hc : attrClassOf entry.2 with
    | visible =>
      simp only [List.filter_cons, hc, decide_True, if_true, List.cons_append]
      simpa using ih
    | hidden =>
      simp only [List.filter_cons, hc, decide_True, if_true]
      simp only [show decide (AttrClass.hidden = AttrClass.visible) = false from rfl,
        show decide (AttrClass.hidden = AttrClass.deleted) = false from rfl]
      simp only [Bool.false_eq_true, if_false, List.append_assoc, List.cons_append]
      exact (List.perm_middle).trans (List.Perm.cons _ (by simpa using ih))
    | deleted =>
      simp only [List.filter_cons, hc, decide_True, if_true]
      simp only [show decide (AttrClass.deleted = AttrClass.visible) = false from rfl,
        show decide (AttrClass.deleted = AttrClass.hidden) = false from rfl]
      simp only [Bool.false_eq_true, if_false]
      exact (List.perm_middle).trans (List.Perm.cons _ ih)

theorem items_perm (attributes : List Attribute) :
    (itemsOfClass attributes AttrClass.visible ++ itemsOfClass attributes AttrClass.hidden ++
      itemsOfClass attributes AttrClass.deleted).Perm
      (attributes.enum.map (fun entry => ({ attr := entry.2, index := entry.1 } : OrderedItem))) := by
  unfold itemsOfClass
  rw [← List.map_append, ← List.map_append]
  exact (three_way_perm attributes.enum).map _

theorem orderedAttrs_length (attributes : List Attribute) :
    (orderedAttrs attributes).length = attributes.length + 1 := by
  have h := (items_perm attributes).length_eq
  simp only [List.length_append, List.length_map, List.enum_length] at h
  rw [orderedAttrs_eq]
  simp only [List.length_append, List.length_singleton]
  omega

theorem cellStep_lengths (formatDate : JSVal → String) (record : ExportRecord) (state : RowState)
    (entry : Nat × OrderedItem) :
    (cellStep formatDate record state entry).row.length = state.row.length + 1 ∧
    (cellStep formatDate record state entry).totals.length = state.totals.length ∧
    (cellStep formatDate record state entry).isNumericColumn.length =
      state.isNumericColumn.length := by
  unfold cellStep
  simp only
  split_ifs <;> simp

theorem cellStep_foldl_lengths (formatDate : JSVal → String) (record : ExportRecord)
    (entries : List (Nat × OrderedItem)) (state : RowState) :
    (entries.foldl (cellStep formatDate record) state).row.length =
        state.row.length + entries.length ∧
    (entries.foldl (cellStep formatDate record) state).totals.length = state.totals.length ∧
    (entries.foldl (cellStep formatDate record) state).isNumericColumn.length =
      state.isNumericColumn.length := by
  induction entries generalizing state with
  | nil => simp
  | cons entry rest ih =>
    rw [List.foldl_cons]
    obtain ⟨h1, h2, h3⟩ := ih (cellStep formatDate record state entry)
    obtain ⟨g1, g2, g3⟩ := cellStep_lengths formatDate record state entry
    refine ⟨?_, by rw [h2, g2], by rw [h3, g3]⟩
    rw [h1, g1, List.length_cons]
    omega

theorem recordStep_foldl (formatDate : JSVal → String) (ordered : List OrderedItem)
    (sheetData : List ExportRecord) (state : SheetState) :
    (sheetData.foldl (recordStep formatDate ordered) state).rows.length =
        state.rows.length + sheetData.length ∧
    (sheetData.foldl (recordStep formatDate ordered) state).totals.length =
        state.totals.length ∧
    ((∀ row ∈ state.rows, row.length = ordered.length) →
      ∀ row ∈ (sheetData.foldl (recordStep formatDate ordered) state).rows,
        row.length = ordered.length) := by
  induction sheetData generalizing state with
  | nil => simp
  | cons record rest ih =>
    rw [List.foldl_cons]
    obtain ⟨h1, h2, h3⟩ := ih (recordStep formatDate ordered state record)
    obtain ⟨g1, g2, _⟩ := cellStep_foldl_lengths formatDate record ordered.enum
      { row := [], totals := state.totals, isNumericColumn := state.isNumericColumn }
    refine ⟨?_, ?_, fun hrows => h3 ?_⟩
    · rw [h1]
      have hrows : (recordStep formatDate ordered state record).rows.length =
          state.rows.length + 1 := by simp [recordStep]
      rw [hrows, List.length_cons]
      omega
    · rw [h2]; simpa [recordStep] using g2
    · intro row hrow
      simp only [recordStep, List.mem_append, List.mem_singleton] at hrow
      rcases hrow with hrow | hrow
      · exact hrows row hrow
      · rw [hrow, g1]; simp

/-- C25: for every sheet metadata and every list of records, the column order of
`processSheetData` is the visible attributes, then the hidden ones, then one blank
separator, then the deleted ones (an attribute flagged deleted counts as deleted, one
flagged hidden and not deleted as hidden); the attributes of each class stand in their
original relative order, every attribute appears exactly once, and the header row,
every data row and the totals row have `attributes.length + 1` cells, with one data row
per record. -/
theorem processSheetData_column_order (formatDate : JSVal → String) (sheetMeta : ExportSheetMeta)
    (sheetData : List ExportRecord) :
    orderedAttrs sheetMeta.attributes =
      itemsOfClass sheetMeta.attributes AttrClass.visible ++
        itemsOfClass sheetMeta.attributes AttrClass.hidden ++ [separatorItem] ++
        itemsOfClass sheetMeta.attributes AttrClass.deleted ∧
    (∀ cls : AttrClass, (itemsOfClass sheetMeta.attributes cls).Sublist
      (sheetMeta.attributes.enum.map
        (fun entry => ({ attr := entry.2, index := entry.1 } : OrderedItem)))) ∧
    ((orderedAttrs sheetMeta.attributes).filter (fun item => decide (item.index ≠ -1))).Perm
      (sheetMeta.attributes.enum.map
        (fun entry => ({ attr := entry.2, index := entry.1 } : OrderedItem))) ∧
    (exportHeaderRow sheetMeta.attributes).length = sheetMeta.attributes.length + 1 ∧
    (exportDataRowsOf formatDate sheetMeta.attributes sheetData).length = sheetData.length ∧
    (∀ row ∈ exportDataRowsOf formatDate sheetMeta.attributes sheetData,
      row.length = sheetMeta.attributes.length + 1) ∧
    (exportTotalsRow formatDate sheetMeta.attributes sheetData).length =
      sheetMeta.attributes.length + 1 ∧
    processSheetData formatDate sheetMeta sheetData =
      [[JSVal.str ("Sheet: " ++ sheetMeta.sheetName ++ " | ID: " ++ sheetMeta.id)], [],
        exportHeaderRow sheetMeta.attributes] ++
        exportDataRowsOf formatDate sheetMeta.attributes sheetData ++
        [exportTotalsRow formatDate sheetMeta.attributes sheetData] := by
  obtain ⟨h1, h2, h3⟩ := recordStep_foldl formatDate (orderedAttrs sheetMeta.attributes)
    sheetData
    { rows := [],
      totals := List.replicate (orderedAttrs sheetMeta.attributes).length 0,
      isNumericColumn := List.replicate (orderedAttrs sheetMeta.attributes).length true }
  refine ⟨orderedAttrs_eq _, fun cls => ?_, ?_, ?_, ?_, ?_, ?_, rfl⟩
  · exact (List.filter_sublist _).map _
  · rw [orderedAttrs_eq]
    have hkeep : ∀ cls : AttrClass,
        (itemsOfClass sheetMeta.attributes cls).filter (fun item => decide (item.index ≠ -1)) =
          itemsOfClass sheetMeta.attributes cls := by
      intro cls
      apply List.filter_eq_self.mpr
      intro item hitem
      simp only [itemsOfClass, List.mem_map] at hitem
      obtain ⟨entry, _, rfl⟩ := hitem
      simp only [decide_eq_true_eq]
      omega
    simp only [List.filter_append, hkeep]
    have hsep : [separatorItem].filter (fun item => decide (item.index ≠ -1)) = [] := by
      decide
    rw [hsep, List.append_nil]
    exact items_perm _
  · simp [exportHeaderRow, orderedAttrs_length]
  · simpa [exportDataRowsOf, processRecords] using h1
  · intro row hrow
    rw [← orderedAttrs_length]
    exact h3 (by simp) row hrow
  · simp only [exportTotalsRow, List.length_set, List.length_map, List.enum_length]
    rw [← orderedAttrs_length]
    simpa [processRecords] using h2

/-- The export of the scenario sheet: the order is `date`, `closing_stock`
(visible), `note` (hidden), the separator, `old_stock` (deleted). -/
theorem processSheetData_example :
    (orderedAttrs exportMeta.attributes).map (fun item => item.index) = [0, 3, 2, -1, 1] ∧
    processSheetData scenarioFormatDate exportMeta
        [{ attributes := [JSVal.str "1 Jan", JSVal.num 3, JSVal.str "x", JSVal.str "4.5"] }] =
      [ [JSVal.str "Sheet: Stock | ID: 42"], [],
        [JSVal.str "Date", JSVal.str "Closing Stock", JSVal.str "Note", JSVal.str "",
          JSVal.str "Old Stock"],
        [JSVal.str "1 Jan", JSVal.num (9 / 2), JSVal.num 0, JSVal.str "", JSVal.num 3],
        [JSVal.str "TOTAL", JSVal.num (9 / 2), JSVal.num 0, JSVal.str "", JSVal.num 3] ] := by
  decide!

/-! ## The sorted view -/

theorem groupLe_trans (localeCompare : String → String → Int) (h : IsCollation localeCompare)
    (x y z : String) (hxy : GroupLe localeCompare x y) (hyz : GroupLe localeCompare y z) :
    GroupLe localeCompare x z := by
  rcases hxy with rfl | hxy
  · exact hyz
  · rcases hyz with rfl | hyz
    · exact Or.inr hxy
    · exact Or.inr (h.trans x y z hxy hyz)

theorem groupLe_of_compare_le (lower : String → String) (localeCompare : String → String → Int)
    (metaData : Option (List SheetMeta)) (sortConfig : SortConfig) (a b : ReconSheet)
    (hle : sortCompare lower localeCompare metaData sortConfig a b ≤ 0) :
    GroupLe localeCompare (sortGroupOf metaData a) (sortGroupOf metaData b) := by
  by_cases hg : sortGroupOf metaData a = sortGroupOf metaData b
  · exact Or.inl hg
  · right
    unfold sortCompare at hle
    simpa [hg] using hle

theorem groupLe_of_not_compare_le (lower : String → String)
    (localeCompare : String → String → Int) (h : IsCollation localeCompare)
    (metaData : Option (List SheetMeta)) (sortConfig : SortConfig) (a b : ReconSheet)
    (hle : ¬ sortCompare lower localeCompare metaData sortConfig a b ≤ 0) :
    GroupLe localeCompare (sortGroupOf metaData b) (sortGroupOf metaData a) := by
  by_cases hg : sortGroupOf metaData a = sortGroupOf metaData b
  · exact Or.inl hg.symm
  · right
    unfold sortCompare at hle
    simp only [ne_eq, hg, not_false_eq_true, if_true, not_le] at hle
    exact h.total _ _ hle

theorem orderedInsert_groupSorted (lower : String → String)
    (localeCompare : String → String → Int) (h : IsCollation localeCompare)
    (metaData : Option (List SheetMeta)) (sortConfig : SortConfig) (b : ReconSheet)
    (l : List ReconSheet)
    (hl : l.Pairwise (fun s t =>
      GroupLe localeCompare (sortGroupOf metaData s) (sortGroupOf metaData t))) :
    (l.orderedInsert
        (fun s t => sortCompare lower localeCompare metaData sortConfig s t ≤ 0) b).Pairwise
      (fun s t => GroupLe localeCompare (sortGroupOf metaData s) (sortGroupOf metaData t)) := by
  induction l with
  | nil => simp
  | cons x xs ih =>
    rw [List.pairwise_cons] at hl
    simp only [List.orderedInsert]
    split_ifs with hr
    · refine List.pairwise_cons.mpr ⟨fun t ht => ?_, List.pairwise_cons.mpr hl⟩
      have hbx := groupLe_of_compare_le lower localeCompare metaData sortConfig b x hr
      rcases List.mem_cons.mp ht with rfl | ht
      · exact hbx
      · exact groupLe_trans localeCompare h _ _ _ hbx (hl.1 t ht)
    · refine List.pairwise_cons.mpr ⟨fun t ht => ?_, ih hl.2⟩
      rcases (List.mem_orderedInsert _).mp ht with rfl | ht
      · exact groupLe_of_not_compare_le lower localeCompare h metaData sortConfig _ x hr
      · exact hl.1 t ht

theorem insertionSort_groupSorted (lower : String → String)
    (localeCompare : String → String → Int) (h : IsCollation localeCompare)
    (metaData : Option (List SheetMeta)) (sortConfig : SortConfig) (l : List ReconSheet) :
    (l.insertionSort
        (fun s t => sortCompare lower localeCompare metaData sortConfig s t ≤ 0)).Pairwise
      (fun s t => GroupLe localeCompare (sortGroupOf metaData s) (sortGroupOf metaData t)) := by
  induction l with
  | nil => simp
  | cons x xs ih =>
    simp only [List.insertionSort]
    exact orderedInsert_groupSorted lower localeCompare h metaData sortConfig x _ ih

theorem sortedSheets_groupSorted (engine : ArraySort) (lower : String → String)
    (localeCompare : String → String → Int) (h : IsCollation localeCompare)
    (metaData : Option (List SheetMeta)) (sortConfig : SortConfig) (l : List ReconSheet)
    (hconsistent : ConsistentOn (sortCompare lower localeCompare metaData sortConfig) l) :
    (sortedSheets engine (sortCompare lower localeCompare metaData sortConfig) l).Pairwise
      (fun s t => GroupLe localeCompare (sortGroupOf metaData s) (sortGroupOf metaData t)) := by
  unfold sortedSheets
  rw [engine.stable _ l hconsistent]
  exact insertionSort_groupSorted lower localeCompare h metaData sortConfig l

theorem totals_sortedSheets (engine : ArraySort) (compareFn : ReconSheet → ReconSheet → Int)
    (l : List ReconSheet) :
    totals (sortedSheets engine compareFn l) = totals l := by
  rw [totals_eq_sums, totals_eq_sums]
  simp only [sum_map_sortedSheets]

/-- The part of the sorted view that holds on every platform: whatever the sort
`engine`, the method `toLowerCase` (`lower`) and the collation `localeCompare`, for
every session, filter state and sort configuration, `sortedSheets` is a permutation of
`filteredSheets` and each of the six aggregate sums computed from it is the sum over
`filteredSheets`. -/
theorem sortedSheets_perm_totals (engine : ArraySort) (lower : String → String)
    (localeCompare : String → String → Int)
    (filter : FilterState) (sortConfig : SortConfig) (sheets : List ReconSheet) :
    (pageSortedSheets engine lower localeCompare filter sortConfig sheets).Perm
      (filteredSheets lower filter sheets) ∧
    totals (pageSortedSheets engine lower localeCompare filter sortConfig sheets) =
      totals (filteredSheets lower filter sheets) :=
  ⟨sortedSheets_perm _ _ _, totals_sortedSheets _ _ _⟩

/-- Where the sheets of a group are contiguous: for a collation that orders the group
names (it returns 0 for no two different names) and a sort callback that is a
consistent comparison function on the sheets in view, the sheets of the same group
(`groupName || "Ungrouped"`) are side by side in `sortedSheets`. -/
theorem sortedSheets_grouped_of_collation (engine : ArraySort) (lower : String → String)
    (localeCompare : String → String → Int)
    (filter : FilterState) (sortConfig : SortConfig) (sheets : List ReconSheet)
    (hcollation : IsCollation localeCompare)
    (hconsistent : ConsistentOn (sortCompare lower localeCompare filter.metaData sortConfig)
      (filteredSheets lower filter sheets)) :
    ∀ (i j k : Nat) (a b c : ReconSheet), i < j → j < k →
      (pageSortedSheets engine lower localeCompare filter sortConfig sheets).get? i = some a →
      (pageSortedSheets engine lower localeCompare filter sortConfig sheets).get? j = some b →
      (pageSortedSheets engine lower localeCompare filter sortConfig sheets).get? k = some c →
      sortGroupOf filter.metaData a = sortGroupOf filter.metaData c →
      sortGroupOf filter.metaData b = sortGroupOf filter.metaData a := by
  intro i j k a b c hij hjk ha hb hc hac
  have hsorted := sortedSheets_groupSorted engine lower localeCompare hcollation
    filter.metaData sortConfig (filteredSheets lower filter sheets) hconsistent
  rw [List.pairwise_iff_getElem] at hsorted
  simp only [List.get?_eq_getElem?] at ha hb hc
  obtain ⟨hi, rfl⟩ := List.getElem?_eq_some_iff.mp ha
  obtain ⟨hj, rfl⟩ := List.getElem?_eq_some_iff.mp hb
  obtain ⟨hk, rfl⟩ := List.getElem?_eq_some_iff.mp hc
  have hab := hsorted i j hi hj hij
  have hbc := hsorted j k hj hk hjk
  unfold pageSortedSheets at hac ⊢
  rw [← hac] at hbc
  rcases hab with hab | hab
  · exact hab.symm
  · rcases hbc with hbc | hbc
    · exact hbc
    · exact (hcollation.antisymm _ _ hab hbc).symm

theorem codePointCompare_isCollation : IsCollation codePointCompare := by
  refine ⟨fun a b hab hba => ?_, fun a b hab => ?_, fun a b c hab hbc => ?_⟩
  · unfold codePointCompare at hab hba
    by_cases h1 : a < b
    · have h2 : ¬ b < a := not_lt.mpr (le_of_lt h1)
      simp [h1, h2] at hba
    · by_cases h2 : b < a
      · simp [h1, h2] at hab
      · exact le_antisymm (not_lt.mp h2) (not_lt.mp h1)
  · unfold codePointCompare at hab ⊢
    by_cases h1 : a < b
    · simp [h1] at hab
    · by_cases h2 : b < a
      · simp [h2]
      · simp [h1, h2] at hab
  · unfold codePointCompare at hab hbc ⊢
    have h1 : ¬ b < a := by
      intro hlt
      have : ¬ a < b := not_lt.mpr (le_of_lt hlt)
      simp [this, hlt] at hab
    have h2 : ¬ c < b := by
      intro hlt
      have : ¬ b < c := not_lt.mpr (le_of_lt hlt)
      simp [this, hlt] at hbc
    have h3 : ¬ c < a := not_lt.mpr (le_trans (not_lt.mp h1) (not_lt.mp h2))
    by_cases h4 : a < c <;> simp [h3, h4]

/-- The sorted view of `P`, `Q`, `R` with `P` and `R` in the group `Raw` and `Q` in
`Finished`, sorted by descending opening total under the code point collation: the
callback is a consistent comparison function there, so on every platform the view is
`Q`, `P`, `R`, with the two sheets of `Raw` side by side. -/
theorem sortedSheets_grouped_example :
    ConsistentOn
      (sortCompare toLowerCase codePointCompare groupedView.metaData
        { key := some SortKey.openingStockTotal, direction := SortDirection.desc })
      (filteredSheets toLowerCase groupedView (initialSheets [stockP, stockQ, stockR])) ∧
    (∀ engine : ArraySort,
      (pageSortedSheets engine toLowerCase codePointCompare groupedView
        { key := some SortKey.openingStockTotal, direction := SortDirection.desc }
        (initialSheets [stockP, stockQ, stockR])).map (fun sheet => sheet.sheetName) =
      ["Q", "P", "R"]) ∧
    (totals (pageSortedSheets stableSort toLowerCase codePointCompare groupedView
        { key := some SortKey.openingStockTotal, direction := SortDirection.desc }
        (initialSheets [stockP, stockQ, stockR]))).openingStock = 6 := by
  have hc : ConsistentOn
      (sortCompare toLowerCase codePointCompare groupedView.metaData
        { key := some SortKey.openingStockTotal, direction := SortDirection.desc })
      (filteredSheets toLowerCase groupedView (initialSheets [stockP, stockQ, stockR])) := by
    decide!
  refine ⟨hc, fun engine => ?_, by decide!⟩
  unfold pageSortedSheets sortedSheets
  rw [engine.stable _ _ hc]
  decide!

/-- The sheets `P`, `Q`, `R`, `T` of the accent scenario sorted by ascending opening
total: the callback is no consistent comparison function there (`P` against `R` and `R`
against `T` are 0, `P` against `T` is not), so the order is the engine's; by insertion
(`stableSort`) it is `P`, `R`, `T`, `Q`, with `R` between the two sheets of one group. -/
theorem sortedSheets_splits_group_by_key :
    ¬ ConsistentOn
      (sortCompare toLowerCase canonicalCompare accentView.metaData
        { key := some SortKey.openingStockTotal })
      (filteredSheets toLowerCase accentView
        (initialSheets [stockP, stockQ, stockR, stockT])) ∧
    (pageSortedSheets stableSort toLowerCase canonicalCompare accentView
      { key := some SortKey.openingStockTotal }
      (initialSheets [stockP, stockQ, stockR, stockT])).map (fun sheet => sheet.sheetName) =
    ["P", "R", "T", "Q"] := by
  decide!

/-- C30 (the code at the failing input): the sheets `P`, `Q`, `R`, `T` are all in view;
the metadata puts `P` and `T` in the group named U+00E9 and `R` in the group named `e` +
U+0301, two different strings that are canonically equivalent, so that the collation
returns 0 for them, and `Q` in the group `z`.  With the sort configuration the page
starts with (no key) the callback returns 0 for `P` against `R` (the groups differ as
strings, and the collation says 0), for `R` against `T`, and for `P` against `T` (same
group, no key): it is a consistent comparison function, the sort is stable, and
whatever the sort `engine` of the platform `sortedSheets` is `P`, `R`, `T`, `Q`.  The
sheets `P` and `T` of one group are not contiguous: `R`, of another group, stands
between them. -/
theorem sortedSheets_splits_group :
    ("\u00e9" : String) ≠ "e\u0301" ∧
    canonicalCompare "\u00e9" "e\u0301" = 0 ∧
    canonicalCompare "e\u0301" "\u00e9" = 0 ∧
    filteredSheets toLowerCase accentView (initialSheets [stockP, stockQ, stockR, stockT]) =
      initialSheets [stockP, stockQ, stockR, stockT] ∧
    ConsistentOn (sortCompare toLowerCase canonicalCompare accentView.metaData {})
      (filteredSheets toLowerCase accentView (initialSheets [stockP, stockQ, stockR, stockT])) ∧
    (∀ engine : ArraySort,
      (pageSortedSheets engine toLowerCase canonicalCompare accentView {}
        (initialSheets [stockP, stockQ, stockR, stockT])).map (fun sheet => sheet.sheetName) =
      ["P", "R", "T", "Q"]) ∧
    (∀ engine : ArraySort,
      (pageSortedSheets engine toLowerCase canonicalCompare accentView {}
        (initialSheets [stockP, stockQ, stockR, stockT])).map
          (sortGroupOf accentView.metaData) =
      ["\u00e9", "e\u0301", "\u00e9", "z"]) ∧
    (∀ engine : ArraySort,
      ¬ ∀ (i j k : Nat) (a b c : ReconSheet), i < j → j < k →
        (pageSortedSheets engine toLowerCase canonicalCompare accentView {}
          (initialSheets [stockP, stockQ, stockR, stockT])).get? i = some a →
        (pageSortedSheets engine toLowerCase canonicalCompare accentView {}
          (initialSheets [stockP, stockQ, stockR, stockT])).get? j = some b →
        (pageSortedSheets engine toLowerCase canonicalCompare accentView {}
          (initialSheets [stockP, stockQ, stockR, stockT])).get? k = some c →
        sortGroupOf accentView.metaData a = sortGroupOf accentView.metaData c →
        sortGroupOf accentView.metaData b = sortGroupOf accentView.metaData a) := by
  have hc : ConsistentOn (sortCompare toLowerCase canonicalCompare accentView.metaData {})
      (filteredSheets toLowerCase accentView
        (initialSheets [stockP, stockQ, stockR, stockT])) := by
    decide!
  have hsorted : ∀ engine : ArraySort,
      pageSortedSheets engine toLowerCase canonicalCompare accentView {}
        (initialSheets [stockP, stockQ, stockR, stockT]) =
      pageSortedSheets stableSort toLowerCase canonicalCompare accentView {}
        (initialSheets [stockP, stockQ, stockR, stockT]) := by
    intro engine
    unfold pageSortedSheets sortedSheets
    rw [engine.stable _ _ hc]
    rfl
  refine ⟨by decide, by decide!, by decide!, by decide!, hc, fun engine => ?_,
    fun engine => ?_, fun engine => ?_⟩
  · rw [hsorted engine]
    decide!
  · rw [hsorted engine]
    decide!
  · rw [hsorted engine]
    intro h
    have hgroups := h 0 1 2
      { toStockSheet := stockP, reconOpeningStock := JSVal.str "",
        reconClosingStock := JSVal.str "", openingDifference := some 0,
        closingDifference := some 0 }
      { toStockSheet := stockR, reconOpeningStock := JSVal.str "",
        reconClosingStock := JSVal.str "", openingDifference := some 0,
        closingDifference := some 0 }
      { toStockSheet := stockT, reconOpeningStock := JSVal.str "",
        reconClosingStock := JSVal.str "", openingDifference := some 0,
        closingDifference := some 0 }
      (by decide) (by decide) (by decide!) (by decide!) (by decide!) (by decide!)
    revert hgroups
    decide!

end Safpack
